import Mathlib

/-!
Verification of the intake-routing-engine ("ieim") core against its
specification.  The Python sources are shallowly embedded: bytes are
`List Nat` (each entry a byte value), file systems are association lists
from path strings to byte lists, `hashlib.sha256` is implemented
concretely over `Nat` arithmetic, and fallible operations return
`Except String`.  External libraries that the code treats as opaque
interfaces (the `uuid` module, `jsonschema` validation, `codecs` UTF-8
decoding, the mail/AV/OCR adapters) are passed in as function
parameters, mirroring how the Python code receives them.
-/

set_option maxRecDepth 100000

namespace Ieim

/-! ## Bytes, hex, SHA-256 (embedding of `hashlib.sha256` usage in
`src/ieim/raw_store.py` and friends) -/

/-- One hex digit (lowercase), as `"%x"` formatting produces. -/
def hexDigit (n : Nat) : Char :=
  if n < 10 then Char.ofNat (48 + n) else Char.ofNat (87 + n)

/-- Two lowercase hex digits of a byte, as in `hashlib`'s `hexdigest`. -/
def hexByte (b : Nat) : List Char :=
  [hexDigit ((b / 16) % 16), hexDigit (b % 16)]

/-- Lowercase hex string of a byte list. -/
def hexOfBytes (bs : List Nat) : String :=
  ⟨(bs.map hexByte).flatten⟩

/-- 32-bit right rotation on `Nat`, reduced mod `2 ^ 32`. -/
def rotr32 (n x : Nat) : Nat :=
  ((x >>> n) ||| (x <<< (32 - n))) % 4294967296

/-- SHA-256 round constants. -/
def sha256K : List Nat :=
  [1116352408, 1899447441, 3049323471, 3921009573, 961987163,
   1508970993, 2453635748, 2870763221, 3624381080, 310598401,
   607225278, 1426881987, 1925078388, 2162078206, 2614888103,
   3248222580, 3835390401, 4022224774, 264347078, 604807628,
   770255983, 1249150122, 1555081692, 1996064986, 2554220882,
   2821834349, 2952996808, 3210313671, 3336571891, 3584528711,
   113926993, 338241895, 666307205, 773529912, 1294757372,
   1396182291, 1695183700, 1986661051, 2177026350, 2456956037,
   2730485921, 2820302411, 3259730800, 3345764771, 3516065817,
   3600352804, 4094571909, 275423344, 430227734, 506948616,
   659060556, 883997877, 958139571, 1322822218, 1537002063,
   1747873779, 1955562222, 2024104815, 2227730452, 2361852424,
   2428436474, 2756734187, 3204031479, 3329325298]

/-- SHA-256 initial hash state. -/
def sha256Init : List Nat :=
  [1779033703, 3144134277, 1013904242, 2773480762,
   1359893119, 2600822924, 528734635, 1541459225]

/-- Big-endian byte expansion of `v` into `n` bytes. -/
def toBytesBE (n v : Nat) : List Nat :=
  (List.range n).map fun i => (v >>> (8 * (n - 1 - i))) &&& 255

/-- SHA-256 message padding: `0x80`, zeros, then the bit length over
8 bytes big-endian, reaching a multiple of 64 bytes. -/
def sha256Pad (msg : List Nat) : List Nat :=
  let l := msg.length
  msg ++ [0x80] ++ List.replicate ((119 - (l % 64)) % 64) 0 ++ toBytesBE 8 (8 * l)

/-- Split a byte list into 64-byte blocks (structural recursion on a
bound so that the kernel can evaluate it). -/
def toBlocksAux : Nat → List Nat → List (List Nat)
  | 0, _ => []
  | _, [] => []
  | n + 1, l => l.take 64 :: toBlocksAux n (l.drop 64)

/-- Split a byte list into 64-byte blocks. -/
def toBlocks (l : List Nat) : List (List Nat) := toBlocksAux (l.length + 1) l

/-- `i`-th byte of a list (0 when out of range). -/
def byteAt (l : List Nat) (i : Nat) : Nat := l.getD i 0

/-- The 16 initial 32-bit big-endian words of a 64-byte block. -/
def blockWords (b : List Nat) : List Nat :=
  (List.range 16).map fun i =>
    byteAt b (4 * i) * 16777216 + byteAt b (4 * i + 1) * 65536 +
      byteAt b (4 * i + 2) * 256 + byteAt b (4 * i + 3)

/-- Extend 16 words to the 64-word message schedule. -/
def sha256Schedule (ws : List Nat) : List Nat :=
  (List.range 48).foldl
    (fun w _ =>
      let n := w.length
      let s0 :=
        rotr32 7 (byteAt w (n - 15)) ^^^ rotr32 18 (byteAt w (n - 15)) ^^^
          (byteAt w (n - 15) >>> 3)
      let s1 :=
        rotr32 17 (byteAt w (n - 2)) ^^^ rotr32 19 (byteAt w (n - 2)) ^^^
          (byteAt w (n - 2) >>> 10)
      w ++ [(byteAt w (n - 16) + s0 + byteAt w (n - 7) + s1) % 4294967296])
    ws

/-- One SHA-256 compression over a 64-byte block. -/
def sha256Compress (h : List Nat) (block : List Nat) : List Nat :=
  let w := sha256Schedule (blockWords block)
  let st :=
    (List.range 64).foldl
      (fun st i =>
        match st with
        | (a, b, c, d, e, f, g, hh) =>
          let s1 := rotr32 6 e ^^^ rotr32 11 e ^^^ rotr32 25 e
          let ch := (e &&& f) ^^^ ((4294967295 - e) &&& g)
          let t1 := (hh + s1 + ch + byteAt sha256K i + byteAt w i) % 4294967296
          let s0 := rotr32 2 a ^^^ rotr32 13 a ^^^ rotr32 22 a
          let mj := (a &&& b) ^^^ (a &&& c) ^^^ (b &&& c)
          let t2 := (s0 + mj) % 4294967296
          ((t1 + t2) % 4294967296, a, b, c, (d + t1) % 4294967296, e, f, g))
      (byteAt h 0, byteAt h 1, byteAt h 2, byteAt h 3,
       byteAt h 4, byteAt h 5, byteAt h 6, byteAt h 7)
  match st with
  | (a, b, c, d, e, f, g, hh) =>
    [(byteAt h 0 + a) % 4294967296, (byteAt h 1 + b) % 4294967296,
     (byteAt h 2 + c) % 4294967296, (byteAt h 3 + d) % 4294967296,
     (byteAt h 4 + e) % 4294967296, (byteAt h 5 + f) % 4294967296,
     (byteAt h 6 + g) % 4294967296, (byteAt h 7 + hh) % 4294967296]

/-- SHA-256 digest (32 bytes) of a byte list. -/
def sha256 (msg : List Nat) : List Nat :=
  let final := (toBlocks (sha256Pad msg)).foldl sha256Compress sha256Init
  (final.map (toBytesBE 4)).flatten

/-- `hashlib.sha256(data).hexdigest()`. -/
def sha256Hex (msg : List Nat) : String := hexOfBytes (sha256 msg)

/-- Embeds `sha256_prefixed` from `src/ieim/raw_store.py`:
`"sha256:" + hashlib.sha256(data).hexdigest()`. -/
def sha256_prefixed (data : List Nat) : String :=
  "sha256:" ++ sha256Hex data

/-! ## UTF-8 encoding (`str.encode("utf-8")`) -/

/-- UTF-8 bytes of one character. -/
def charUtf8 (c : Char) : List Nat :=
  let v := c.toNat
  if v < 0x80 then [v]
  else if v < 0x800 then [0xC0 ||| (v >>> 6), 0x80 ||| (v &&& 63)]
  else if v < 0x10000 then
    [0xE0 ||| (v >>> 12), 0x80 ||| ((v >>> 6) &&& 63), 0x80 ||| (v &&& 63)]
  else
    [0xF0 ||| (v >>> 18), 0x80 ||| ((v >>> 12) &&& 63),
     0x80 ||| ((v >>> 6) &&& 63), 0x80 ||| (v &&& 63)]

/-- `s.encode("utf-8")` as a byte list. -/
def strBytes (s : String) : List Nat := (s.data.map charUtf8).flatten

/-! ## JSON values and `json.dumps`

Python dicts are modelled as association lists in insertion order;
`None` and JSON `null` are both `Jv.null` (Python's `json` round-trips
them identically).  Numbers are restricted to integers, which is all the
embedded call sites serialize. -/

mutual
inductive Jv where
  | null : Jv
  | bool (b : Bool) : Jv
  | num (n : Int) : Jv
  | str (s : String) : Jv
  | arr (xs : JvList) : Jv
  | obj (kvs : JvPairs) : Jv
deriving DecidableEq
inductive JvList where
  | nil : JvList
  | cons (hd : Jv) (tl : JvList) : JvList
deriving DecidableEq
inductive JvPairs where
  | nil : JvPairs
  | cons (k : String) (v : Jv) (tl : JvPairs) : JvPairs
deriving DecidableEq
end

/-- Build an object entry list from a plain list. -/
def JvPairs.ofList : List (String × Jv) → JvPairs
  | [] => .nil
  | (k, v) :: rest => .cons k v (ofList rest)

/-- Build a JSON array from a plain list. -/
def JvList.ofList : List Jv → JvList
  | [] => .nil
  | v :: rest => .cons v (ofList rest)

/-- Code-point lexicographic order on char lists (Python `str` `<`). -/
def lexLe : List Char → List Char → Bool
  | [], _ => true
  | _ :: _, [] => false
  | a :: as, b :: bs =>
    if a.toNat < b.toNat then true
    else if b.toNat < a.toNat then false
    else lexLe as bs

/-- Python string order. -/
def strLe (a b : String) : Bool := lexLe a.data b.data

/-- Stable insertion of a key-value pair into a key-sorted entry list. -/
def insertPair (k : String) (v : Jv) : JvPairs → JvPairs
  | .nil => .cons k v .nil
  | .cons k' v' qs =>
    if strLe k k' then .cons k v (.cons k' v' qs)
    else .cons k' v' (insertPair k v qs)

/-- Stable sort of object entries by key (`sort_keys=True`). -/
def sortPairs : JvPairs → JvPairs
  | .nil => .nil
  | .cons k v rest => insertPair k v (sortPairs rest)

mutual
/-- Recursively sort every object's keys, so that the plain dump of the
result equals Python's `json.dumps(..., sort_keys=True)`. -/
def sortJv : Jv → Jv
  | .null => .null
  | .bool b => .bool b
  | .num n => .num n
  | .str s => .str s
  | .arr xs => .arr (sortJvList xs)
  | .obj kvs => .obj (sortPairs (sortJvPairs kvs))
/-- `sortJv` over array elements. -/
def sortJvList : JvList → JvList
  | .nil => .nil
  | .cons x xs => .cons (sortJv x) (sortJvList xs)
/-- `sortJv` over object values. -/
def sortJvPairs : JvPairs → JvPairs
  | .nil => .nil
  | .cons k v kvs => .cons k (sortJv v) (sortJvPairs kvs)
end

/-- JSON string escaping as Python's `json.dumps(..., ensure_ascii=False)`
performs it: `"` and `\` escaped, control characters as `\uXXXX` or the
short forms, everything else passed through raw. -/
def escChar (c : Char) : List Char :=
  if c = '"' then ['\\', '"']
  else if c = '\\' then ['\\', '\\']
  else if c = Char.ofNat 10 then ['\\', 'n']
  else if c = Char.ofNat 13 then ['\\', 'r']
  else if c = Char.ofNat 9 then ['\\', 't']
  else if c = Char.ofNat 8 then ['\\', 'b']
  else if c = Char.ofNat 12 then ['\\', 'f']
  else if c.toNat < 32 then '\\' :: 'u' :: '0' :: '0' :: hexByte c.toNat
  else [c]

/-- A JSON string literal. -/
def dumpStr (s : String) : String :=
  ⟨'"' :: (s.data.map escChar).flatten ++ ['"']⟩

/-- Join with a separator. -/
def joinSep (sep : String) : List String → String
  | [] => ""
  | [x] => x
  | x :: xs => x ++ sep ++ joinSep sep xs

mutual
/-- Compact dump of an (already key-sorted) value, with separators
`(",", ":")` as the audit code passes them. -/
def dumpJv : Jv → String
  | .null => "null"
  | .bool true => "true"
  | .bool false => "false"
  | .num n => toString n
  | .str s => dumpStr s
  | .arr xs => "[" ++ joinSep "," (dumpJvList xs) ++ "]"
  | .obj kvs => "\x7b" ++ joinSep "," (dumpJvPairs kvs) ++ "\x7d"
/-- Compact dumps of array elements. -/
def dumpJvList : JvList → List String
  | .nil => []
  | .cons x xs => dumpJv x :: dumpJvList xs
/-- Compact dumps of object entries. -/
def dumpJvPairs : JvPairs → List String
  | .nil => []
  | .cons k v kvs => (dumpStr k ++ ":" ++ dumpJv v) :: dumpJvPairs kvs
end

/-- Embeds `_canonical_json_bytes` / the verifier's encoder:
`json.dumps(obj, sort_keys=True, separators=(",", ":"), ensure_ascii=False)`. -/
def canonicalDumps (v : Jv) : String := dumpJv (sortJv v)

/-- `indent`-spaces prefix at nesting `level` for `json.dumps(indent=2)`. -/
def indentAt (level : Nat) : String := ⟨List.replicate (2 * level) ' '⟩

mutual
/-- Dump of an (already key-sorted) value with `indent=2` (item separator
`","` + newline, key separator `": "`), as `json.dumps(record, indent=2,
ensure_ascii=False, sort_keys=True)` produces. -/
def dump2Jv : Nat → Jv → String
  | _, .null => "null"
  | _, .bool true => "true"
  | _, .bool false => "false"
  | _, .num n => toString n
  | _, .str s => dumpStr s
  | _, .arr .nil => "[]"
  | level, .arr (.cons x xs) =>
    "[\n" ++ joinSep ",\n" (dump2JvList (level + 1) (.cons x xs)) ++
      "\n" ++ indentAt level ++ "]"
  | _, .obj .nil => "\x7b\x7d"
  | level, .obj (.cons k v kvs) =>
    "\x7b\n" ++ joinSep ",\n" (dump2JvPairs (level + 1) (.cons k v kvs)) ++
      "\n" ++ indentAt level ++ "\x7d"
/-- Indent-2 dumps of array elements. -/
def dump2JvList : Nat → JvList → List String
  | _, .nil => []
  | level, .cons x xs =>
    (indentAt level ++ dump2Jv level x) :: dump2JvList level xs
/-- Indent-2 dumps of object entries. -/
def dump2JvPairs : Nat → JvPairs → List String
  | _, .nil => []
  | level, .cons k v kvs =>
    (indentAt level ++ dumpStr k ++ ": " ++ dump2Jv level v) ::
      dump2JvPairs level kvs
end

/-- `json.dumps(v, indent=2, ensure_ascii=False, sort_keys=True)`. -/
def dumps2 (v : Jv) : String := dump2Jv 0 (sortJv v)

/-! ## Python dict primitives on entry lists -/

/-- `d.get(k)`: Python returns `None` for a missing key, and a parsed
JSON `null` is also `None`, so both erase to `Jv.null`. -/
def pyGet : JvPairs → String → Jv
  | .nil, _ => .null
  | .cons k' v rest, k => if k' = k then v else pyGet rest k

/-- `d[k] = v`: replace the first binding of `k`, else append. -/
def setKey : JvPairs → String → Jv → JvPairs
  | .nil, k, v => .cons k v .nil
  | .cons k' v' rest, k, v =>
    if k' = k then .cons k v rest else .cons k' v' (setKey rest k v)

/-- `{a: b for a, b in d.items() if a != k}`. -/
def removeKey : JvPairs → String → JvPairs
  | .nil, _ => .nil
  | .cons k' v rest, k =>
    if k' = k then removeKey rest k else .cons k' v (removeKey rest k)

/-! ## Substring search (`needle in hay` on Python strings) -/

/-- `needle in hay` over char lists (`"" in s` is `True`). -/
def hasSub (hay needle : List Char) : Bool :=
  if needle.isPrefixOf hay then true
  else
    match hay with
    | [] => false
    | _ :: t => hasSub t needle

/-- Python's `needle in hay` on strings. -/
def strHasSub (hay needle : String) : Bool := hasSub hay.data needle.data

/-- Python's `s.startswith(pre)` (char-list based so that the kernel
can evaluate it). -/
def strStartsWith (s pre : String) : Bool := pre.data.isPrefixOf s.data

/-- `hay.find(needle)` over char lists: first match index, `none` for -1. -/
def findSub (hay needle : List Char) : Option Nat :=
  if needle.isPrefixOf hay then some 0
  else
    match hay with
    | [] => none
    | _ :: t => (findSub t needle).map (· + 1)

/-! ## File system state

A directory tree is an association list from path strings to byte
contents.  `tmp`-write followed by atomic rename is modelled as a single
insertion; `mkdir` is a no-op. -/

/-- Files by path. -/
abbrev FsState := List (String × List Nat)

/-- `path.exists()` / `path.read_bytes()` combined. -/
def fsGet (st : FsState) (p : String) : Option (List Nat) :=
  (st.find? (fun q => q.1 = p)).map (fun q => q.2)

/-- `tmp.write_bytes(data); tmp.replace(path)`. -/
def fsPut (st : FsState) (p : String) (data : List Nat) : FsState :=
  (p, data) :: st

/-! ## Content-addressed raw store
(`FileRawStore.put_bytes`, `src/ieim/raw_store.py` lines 26-55) -/

/-- Result record of `FileRawStore.put_bytes`. -/
structure RawStorePutResult where
  uri : String
  sha256 : String
  size_bytes : Nat
deriving DecidableEq

/-- Embeds `FileRawStore.put_bytes`.  The store state is passed and
returned explicitly; `RuntimeError`/`ValueError` become `.error` with
the source's message. -/
def put_bytes (store : FsState) (kind : String) (data : List Nat)
    (file_extension : Option String) :
    Except String (FsState × RawStorePutResult) :=
  if kind = "" || strHasSub kind "/" || strHasSub kind "\\" then
    .error "kind must be a simple token"
  else if (match file_extension with
           | some e => e ≠ "" && ¬ strStartsWith e "."
           | none => false) then
    .error "file_extension must start with '.'"
  else
    let sha := sha256_prefixed data
    let hex_hash := sha256Hex data
    let ext := (file_extension.getD "")
    let rel := "raw_store/" ++ kind ++ "/" ++ hex_hash ++ ext
    match fsGet store rel with
    | some existing =>
      if sha256_prefixed existing ≠ sha then
        .error "immutability violation: existing content mismatch"
      else
        .ok (store, ⟨rel, sha, data.length⟩)
    | none =>
      .ok (fsPut store rel data, ⟨rel, sha, data.length⟩)

/-! ## Append-only audit log
(`FileAuditLogger.append`, `src/ieim/audit/file_audit_log.py` lines
117-144, and `verify_audit_logs`, `src/ieim/audit/verify.py` lines
41-98).

One audit file is a list of already-parsed JSON event objects; the
serialize-line / parse-line round trip of the JSONL file is dropped
(it is the identity on these values, and every serialized event is a
non-empty line). -/

/-- `_event_hash` / the verifier's recomputation:
`sha256(canonical_json(event without event_hash))`. -/
def eventHashOf (e : JvPairs) : String :=
  sha256_prefixed (strBytes (canonicalDumps (.obj (removeKey e "event_hash"))))

/-- `event_hash` of the last event of the file, as `append` reads it
from the last non-empty line (`None` → `Jv.null` when the file is
empty or the last event lacks the key). -/
def lastEventHash (file : List JvPairs) : Jv :=
  match file.getLast? with
  | none => .null
  | some prev => pyGet prev "event_hash"

/-- Embeds `FileAuditLogger.append` for the file of one
`(message_id, run_id)` pair: sets `prev_event_hash` from the last line,
computes `event_hash` over the event without that field, and appends. -/
def appendAudit (file : List JvPairs) (event : JvPairs) :
    Except String (List JvPairs) :=
  match pyGet event "message_id", pyGet event "run_id" with
  | .str _, .str _ =>
    let e1 := setKey event "prev_event_hash" (lastEventHash file)
    let e2 := setKey e1 "event_hash" (.str (eventHashOf e1))
    .ok (file ++ [e2])
  | _, _ => .error "audit event missing message_id/run_id"

/-- A sequence of `append` calls on one audit file, starting empty. -/
def appendAll (events : List JvPairs) : Except String (List JvPairs) :=
  events.foldlM appendAudit []

/-- Python `str()` of a parsed JSON value, as the verifier's f-strings
apply it.  The verifier only ever formats strings and `None` under the
schema hypotheses used below; container values are rendered as their
JSON dump here, which Python would render with `repr` instead. -/
def jvPyStr : Jv → String
  | .str s => s
  | .null => "None"
  | .bool true => "True"
  | .bool false => "False"
  | .num n => toString n
  | v => canonicalDumps v

/-- `jvPyStr` on a JSON string is that string. -/
theorem jvPyStr_str (s : String) : jvPyStr (.str s) = s := rfl

/-- The per-event loop of `verify_audit_logs` over one file: schema
check (the external `jsonschema` validator is the `schemaOk`
parameter), path-consistency checks, `prev_event_hash` continuity and
`event_hash` recomputation, accumulating error strings in order. -/
def verifyAux (schemaOk : JvPairs → Bool) (path mid rid : String) :
    Nat → Jv → List JvPairs → List String
  | _, _, [] => []
  | idx, prevHash, e :: rest =>
    if ¬ schemaOk e then
      (path ++ ":" ++ toString idx ++ ": schema validation failed") ::
        verifyAux schemaOk path mid rid (idx + 1) prevHash rest
    else
      (if jvPyStr (pyGet e "message_id") ≠ mid then
        [path ++ ":" ++ toString idx ++ ": message_id mismatch: " ++
          jvPyStr (pyGet e "message_id") ++ " != " ++ mid]
      else []) ++
      (if jvPyStr (pyGet e "run_id") ≠ rid then
        [path ++ ":" ++ toString idx ++ ": run_id mismatch: " ++
          jvPyStr (pyGet e "run_id") ++ " != " ++ rid]
      else []) ++
      (if pyGet e "prev_event_hash" ≠ prevHash then
        [path ++ ":" ++ toString idx ++ ": prev_event_hash mismatch: " ++
          jvPyStr (pyGet e "prev_event_hash") ++ " != " ++ jvPyStr prevHash]
      else []) ++
      (if pyGet e "event_hash" ≠ .str (eventHashOf e) then
        [path ++ ":" ++ toString idx ++ ": event_hash mismatch: " ++
          jvPyStr (pyGet e "event_hash") ++ " != " ++ eventHashOf e]
      else []) ++
      verifyAux schemaOk path mid rid (idx + 1) (pyGet e "event_hash") rest

/-- `verify_audit_logs` restricted to a single audit file at `path`
whose directory name is `mid` and stem is `rid` (the error list; the
checked-file and checked-event counters are dropped). -/
def verifyAuditFile (schemaOk : JvPairs → Bool) (path mid rid : String)
    (events : List JvPairs) : List String :=
  if events.isEmpty then [path ++ ": empty audit log"]
  else verifyAux schemaOk path mid rid 1 .null events

/-! ## HITL correction store
(`HitlService.submit_correction`, `src/ieim/hitl/service.py` lines
106-117, with `FileCorrectionStore.write` lines 35-54) -/

/-- Embeds the write/replay portion of `HitlService.submit_correction`:
the record's canonical bytes are `json.dumps(record, indent=2,
ensure_ascii=False, sort_keys=True) + "\n"`; an existing file is
compared by SHA-256 and a mismatch raises the immutability error,
equality returns the existing path; otherwise the store writes the
bytes atomically. -/
def submit_correction_write (hitl : FsState) (path : String)
    (record : Jv) : Except String (FsState × String) :=
  let expected_bytes := strBytes (dumps2 record) ++ strBytes "\n"
  match fsGet hitl path with
  | some existing =>
    if sha256_prefixed existing ≠ sha256_prefixed expected_bytes then
      .error "immutability violation: correction record exists with different content"
    else .ok (hitl, path)
  | none => .ok (fsPut hitl path expected_bytes, path)

/-! ## Attachment stage
(`AttachmentStage.process_message`, `src/ieim/attachments/stage.py`
lines 67-161, with its helpers `_extract_text`, `_derive_attachment_id`
and `_best_effort_mime_type`).

The per-attachment loop body is embedded as `processAttachment`; the
mail adapter's bytes are an input, and the AV scanner, optional OCR
processor, `mimetypes.guess_type`, `uuid` parsing/derivation,
`codecs` UTF-8 decoding, `pathlib`'s suffix rule and Python's float
`repr` are opaque interface parameters, as the Python code treats
them. -/

/-- `OCRResult` from `src/ieim/attachments/ocr.py` (the confidence
float is carried opaquely as a rational). -/
structure OCRResult where
  text : String
  confidence : Rat
deriving DecidableEq

/-- One source attachment as the ingest adapter hands it over. -/
structure AttachmentInput where
  attachment_id : String
  filename : String
  mime_type : String
  data : List Nat
deriving DecidableEq

/-- The external collaborators of `AttachmentStage` and the schema
constants its artifact carries. -/
structure StageCtx where
  avScan : List Nat → String → String → String
  ocrProc : Option (List Nat → String → String → Option OCRResult)
  mimeGuess : String → Option String
  isUuid : String → Bool
  uuid5 : String → String
  decodeUtf8Replace : List Nat → String
  pathSuffix : String → String
  floatRepr : Rat → String
  schema_id : String
  schema_version : String

/-- Embeds `_best_effort_mime_type`. -/
def best_effort_mime_type (ctx : StageCtx) (filename declared : String) :
    String :=
  if declared ≠ "" then declared
  else ((ctx.mimeGuess filename).getD "application/octet-stream")

/-- Embeds `_extract_text`: UTF-8 text only for `text/*` mime types. -/
def extract_text (ctx : StageCtx) (mime_type : String) (data : List Nat) :
    Option String :=
  if ¬ strStartsWith mime_type "text/" then none
  else some (ctx.decodeUtf8Replace data)

/-- Embeds `_derive_attachment_id`: the source id when it parses as a
UUID, else `uuid5` of the derivation payload. -/
def derive_attachment_id (ctx : StageCtx)
    (message_id source_attachment_id sha : String) : String :=
  if ctx.isUuid source_attachment_id then source_attachment_id
  else ctx.uuid5 ("att:" ++ message_id ++ ":" ++ source_attachment_id ++
    ":" ++ sha)

/-- The artifact dict `process_message` builds (stage.py lines
120-136). -/
structure AttachmentArtifact where
  schema_id : String
  schema_version : String
  attachment_id : String
  message_id : String
  filename : String
  mime_type : String
  size_bytes : Nat
  sha256 : String
  av_status : String
  extracted_text_uri : Option String
  extracted_text_sha256 : Option String
  ocr_applied : Bool
  ocr_confidence : Option Rat
  doc_type_candidates : List Jv
  created_at : String
deriving DecidableEq

/-- `null` or a JSON string literal, for optional artifact fields. -/
def optJsonStr : Option String → String
  | none => "null"
  | some s => dumpStr s

/-- `json.dumps(artifact, indent=2, ensure_ascii=False,
sort_keys=True)` over the fixed artifact dict: the fifteen keys appear
in their sorted order. -/
def artifactDumps (ctx : StageCtx) (a : AttachmentArtifact) : String :=
  "\x7b\n" ++
  "  \"attachment_id\": " ++ dumpStr a.attachment_id ++ ",\n" ++
  "  \"av_status\": " ++ dumpStr a.av_status ++ ",\n" ++
  "  \"created_at\": " ++ dumpStr a.created_at ++ ",\n" ++
  "  \"doc_type_candidates\": " ++
    dump2Jv 1 (sortJv (.arr (.ofList a.doc_type_candidates))) ++ ",\n" ++
  "  \"extracted_text_sha256\": " ++ optJsonStr a.extracted_text_sha256 ++ ",\n" ++
  "  \"extracted_text_uri\": " ++ optJsonStr a.extracted_text_uri ++ ",\n" ++
  "  \"filename\": " ++ dumpStr a.filename ++ ",\n" ++
  "  \"message_id\": " ++ dumpStr a.message_id ++ ",\n" ++
  "  \"mime_type\": " ++ dumpStr a.mime_type ++ ",\n" ++
  "  \"ocr_applied\": " ++ (if a.ocr_applied then "true" else "false") ++ ",\n" ++
  "  \"ocr_confidence\": " ++
    (match a.ocr_confidence with
     | none => "null"
     | some c => ctx.floatRepr c) ++ ",\n" ++
  "  \"schema_id\": " ++ dumpStr a.schema_id ++ ",\n" ++
  "  \"schema_version\": " ++ dumpStr a.schema_version ++ ",\n" ++
  "  \"sha256\": " ++ dumpStr a.sha256 ++ ",\n" ++
  "  \"size_bytes\": " ++ toString a.size_bytes ++ "\n" ++
  "\x7d"

/-- `ArtifactRef` from `src/ieim/audit/file_audit_log.py`. -/
structure ArtifactRef where
  schema_id : String
  uri : String
  sha256 : String
deriving DecidableEq

/-- `ProcessedAttachment` from `src/ieim/attachments/stage.py`. -/
structure ProcessedAttachment where
  attachment_id : String
  raw_ref : ArtifactRef
  artifact_ref : ArtifactRef
deriving DecidableEq

/-- The artifact write step (stage.py lines 138-149): write the bytes
atomically when the path is new, otherwise read the existing bytes
back — no comparison takes place.  Returns the new directory state and
the bytes the output reference is hashed over. -/
def artifact_write (outDir : FsState) (artifact_path : String)
    (artifact_bytes : List Nat) : FsState × List Nat :=
  match fsGet outDir artifact_path with
  | none => (fsPut outDir artifact_path artifact_bytes, artifact_bytes)
  | some existing => (outDir, existing)

/-- The text-extraction block of `process_message` (stage.py lines
88-114): runs only for `av_status == "CLEAN"`; `text/*` data is decoded
and stored, otherwise a configured OCR processor is consulted.  Returns
the derived-store state and the four extraction fields. -/
def stageExtraction (ctx : StageCtx) (derived : FsState)
    (av_status mime_type filename : String) (data : List Nat) :
    Except String (FsState × Option String × Option String × Bool × Option Rat) :=
  if av_status = "CLEAN" then
    match extract_text ctx mime_type data with
    | some extracted => do
      let (derived', tput) ←
        put_bytes derived "attachment_text" (strBytes extracted) (some ".txt")
      .ok (derived', some tput.uri, some tput.sha256, false, none)
    | none =>
      match ctx.ocrProc with
      | some ocrf =>
        match ocrf data filename mime_type with
        | some ocr => do
          let (derived', tput) ←
            put_bytes derived "attachment_text" (strBytes ocr.text) (some ".txt")
          .ok (derived', some tput.uri, some tput.sha256, true, some ocr.confidence)
        | none => .ok (derived, none, none, false, none)
      | none => .ok (derived, none, none, false, none)
  else .ok (derived, none, none, false, none)

/-- The `file_extension` the raw put receives:
`Path(att.filename).suffix if att.filename else ""`, then
`ext or None`. -/
def stageRawExt (ctx : StageCtx) (att : AttachmentInput) : Option String :=
  let ext := if att.filename = "" then "" else ctx.pathSuffix att.filename
  if ext = "" then none else some ext

/-- The mime type the stage settles on for one attachment. -/
def stageMime (ctx : StageCtx) (att : AttachmentInput) : String :=
  best_effort_mime_type ctx att.filename att.mime_type

/-- The AV verdict for one attachment. -/
def stageAv (ctx : StageCtx) (att : AttachmentInput) : String :=
  ctx.avScan att.data att.filename (stageMime ctx att)

/-- The artifact dict the stage builds for one attachment, given the
four extraction fields. -/
def stageArtifact (ctx : StageCtx) (message_id created_at_s : String)
    (att : AttachmentInput)
    (ex : Option String × Option String × Bool × Option Rat) :
    AttachmentArtifact :=
  { schema_id := ctx.schema_id
    schema_version := ctx.schema_version
    attachment_id :=
      derive_attachment_id ctx message_id att.attachment_id
        (sha256_prefixed att.data)
    message_id := message_id
    filename := att.filename
    mime_type := stageMime ctx att
    size_bytes := att.data.length
    sha256 := sha256_prefixed att.data
    av_status := stageAv ctx att
    extracted_text_uri := ex.1
    extracted_text_sha256 := ex.2.1
    ocr_applied := ex.2.2.1
    ocr_confidence := ex.2.2.2
    doc_type_candidates := []
    created_at := created_at_s }

/-- The per-attachment loop body of `AttachmentStage.process_message`:
raw put, AV scan, text/OCR extraction, artifact build and artifact
write.  State is `(raw store, derived store, attachments_out_dir)`. -/
def processAttachment (ctx : StageCtx)
    (raw derived outDir : FsState) (message_id created_at_s : String)
    (att : AttachmentInput) :
    Except String
      (FsState × FsState × FsState × AttachmentArtifact × ProcessedAttachment) := do
  let (raw', put) ←
    put_bytes raw "attachments" att.data (stageRawExt ctx att)
  let (derived', ex) ←
    (stageExtraction ctx derived (stageAv ctx att) (stageMime ctx att)
        att.filename att.data).map
      (fun r => (r.1, r.2))
  let artifact := stageArtifact ctx message_id created_at_s att ex
  let artifact_path := artifact.attachment_id ++ ".artifact.json"
  let payload := strBytes (artifactDumps ctx artifact) ++ [10]
  let (outDir', artifact_bytes) := artifact_write outDir artifact_path payload
  let raw_ref : ArtifactRef := ⟨"RAW_ATTACHMENT", put.uri, put.sha256⟩
  let out_ref : ArtifactRef :=
    ⟨ctx.schema_id, artifact_path, sha256_prefixed artifact_bytes⟩
  .ok (raw', derived', outDir', artifact,
    ⟨artifact.attachment_id, raw_ref, out_ref⟩)

/-- The hash-chain invariant of one audit file, started from `p`:
every event's `prev_event_hash` is the previous `event_hash` (`p`,
i.e. null, at the first line) and every `event_hash` is the SHA-256 of
the canonical JSON of the event without that field. -/
def ChainFrom (p : Jv) : List JvPairs → Prop
  | [] => True
  | e :: rest =>
    pyGet e "prev_event_hash" = p ∧
    pyGet e "event_hash" = .str (eventHashOf e) ∧
    ChainFrom (pyGet e "event_hash") rest

/-- Both ids of an event are the given strings. -/
@[reducible]
def eventIdsOk (mid rid : String) (e : JvPairs) : Prop :=
  pyGet e "message_id" = .str mid ∧ pyGet e "run_id" = .str rid

/-- The event `append` actually writes: `prev_event_hash` from the last
line, then `event_hash` over the event without that field. -/
def appendedEvent (file : List JvPairs) (ev : JvPairs) : JvPairs :=
  setKey (setKey ev "prev_event_hash" (lastEventHash file)) "event_hash"
    (.str (eventHashOf (setKey ev "prev_event_hash" (lastEventHash file))))

theorem pyGet_setKey_same :
    ∀ (e : JvPairs) (k : String) (v : Jv), pyGet (setKey e k v) k = v
  | .nil, k, v => by simp [setKey, pyGet]
  | .cons k' v' rest, k, v => by
    by_cases h : k' = k
    · simp [setKey, h, pyGet]
    · simp [setKey, h, pyGet, pyGet_setKey_same rest k v]

theorem pyGet_setKey_ne :
    ∀ (e : JvPairs) (k k' : String) (v : Jv), k' ≠ k →
      pyGet (setKey e k v) k' = pyGet e k'
  | .nil, k, k', v, h => by
    simp [setKey, pyGet, Ne.symm h]
  | .cons k'' v'' rest, k, k', v, h => by
    by_cases hk : k'' = k
    · subst hk
      simp [setKey, pyGet, Ne.symm h]
    · simp [setKey, hk, pyGet, pyGet_setKey_ne rest k k' v h]

theorem removeKey_setKey :
    ∀ (e : JvPairs) (k : String) (v : Jv),
      removeKey (setKey e k v) k = removeKey e k
  | .nil, k, v => by simp [setKey, removeKey]
  | .cons k' v' rest, k, v => by
    by_cases h : k' = k
    · simp [setKey, removeKey, h, removeKey_setKey rest k v]
    · simp [setKey, removeKey, h, removeKey_setKey rest k v]

theorem eventHashOf_appendedEvent (file : List JvPairs) (ev : JvPairs) :
    eventHashOf (appendedEvent file ev) =
      eventHashOf (setKey ev "prev_event_hash" (lastEventHash file)) := by
  simp only [appendedEvent, eventHashOf, removeKey_setKey]

theorem appendedEvent_hash (file : List JvPairs) (ev : JvPairs) :
    pyGet (appendedEvent file ev) "event_hash" =
      .str (eventHashOf (appendedEvent file ev)) := by
  rw [eventHashOf_appendedEvent]
  simp only [appendedEvent, pyGet_setKey_same]

theorem appendedEvent_prev (file : List JvPairs) (ev : JvPairs) :
    pyGet (appendedEvent file ev) "prev_event_hash" = lastEventHash file := by
  simp only [appendedEvent]
  rw [pyGet_setKey_ne _ _ _ _ (by decide), pyGet_setKey_same]

theorem appendedEvent_ids {mid rid : String} (file : List JvPairs)
    (ev : JvPairs) (h : eventIdsOk mid rid ev) :
    eventIdsOk mid rid (appendedEvent file ev) := by
  obtain ⟨hm, hr⟩ := h
  constructor
  · simp only [appendedEvent]
    rw [pyGet_setKey_ne _ _ _ _ (by decide), pyGet_setKey_ne _ _ _ _ (by decide), hm]
  · simp only [appendedEvent]
    rw [pyGet_setKey_ne _ _ _ _ (by decide), pyGet_setKey_ne _ _ _ _ (by decide), hr]

theorem appendAudit_ok {mid rid : String} (file : List JvPairs)
    (ev : JvPairs) (h : eventIdsOk mid rid ev) :
    appendAudit file ev = .ok (file ++ [appendedEvent file ev]) := by
  obtain ⟨hm, hr⟩ := h
  simp only [appendAudit, hm, hr, appendedEvent]

/-- The state the chain folds to: `p` on an empty list, else the last
`event_hash`. -/
def lastHashFrom (p : Jv) : List JvPairs → Jv
  | [] => p
  | e :: rest => lastHashFrom (pyGet e "event_hash") rest

theorem lastHashFrom_eq :
    ∀ (xs : List JvPairs) (p : Jv), lastHashFrom p xs =
      (match xs.getLast? with
       | none => p
       | some e => pyGet e "event_hash")
  | [], _ => rfl
  | [e], p => by simp [lastHashFrom]
  | e :: f :: rest, p => by
    simp only [lastHashFrom, List.getLast?_cons_cons]
    exact lastHashFrom_eq (f :: rest) (pyGet e "event_hash")

theorem lastEventHash_eq (file : List JvPairs) :
    lastEventHash file = lastHashFrom .null file := by
  rw [lastHashFrom_eq]
  cases h : file.getLast? <;> simp [lastEventHash, h]

theorem chainFrom_snoc :
    ∀ (xs : List JvPairs) (e : JvPairs) (p : Jv),
      ChainFrom p (xs ++ [e]) ↔
        (ChainFrom p xs ∧
          pyGet e "prev_event_hash" = lastHashFrom p xs ∧
          pyGet e "event_hash" = .str (eventHashOf e))
  | [], e, p => by simp [ChainFrom, lastHashFrom, and_comm]
  | x :: rest, e, p => by
    simp only [List.cons_append, ChainFrom, lastHashFrom, List.append_eq]
    rw [chainFrom_snoc rest e (pyGet x "event_hash")]
    tauto

/-- One `append` extends a chained file to a chained file, keeping the
event ids. -/
theorem append_preserves_chain {mid rid : String} (file : List JvPairs)
    (ev : JvPairs) (hev : eventIdsOk mid rid ev)
    (hch : ChainFrom .null file)
    (hids : ∀ e ∈ file, eventIdsOk mid rid e) :
    ChainFrom .null (file ++ [appendedEvent file ev]) ∧
      (∀ e ∈ file ++ [appendedEvent file ev], eventIdsOk mid rid e) := by
  constructor
  · rw [chainFrom_snoc]
    exact ⟨hch, by rw [appendedEvent_prev, lastEventHash_eq],
      appendedEvent_hash file ev⟩
  · intro e he
    rcases List.mem_append.mp he with h | h
    · exact hids e h
    · rcases List.mem_singleton.mp h with rfl
      exact appendedEvent_ids file ev hev

/-- The whole `append` sequence: every prefix of appends succeeds, and
the produced file is hash-chained with consistent ids. -/
theorem appendAll_ok {mid rid : String} :
    ∀ (es : List JvPairs) (file₀ : List JvPairs),
      (∀ ev ∈ es, eventIdsOk mid rid ev) →
      ChainFrom .null file₀ →
      (∀ e ∈ file₀, eventIdsOk mid rid e) →
      ∃ file₁, es.foldlM appendAudit file₀ = .ok file₁ ∧
        ChainFrom .null file₁ ∧
        (∀ e ∈ file₁, eventIdsOk mid rid e) ∧
        file₁.length = file₀.length + es.length := by
  intro es
  induction es with
  | nil => intro file₀ _ hch hids; exact ⟨file₀, rfl, hch, hids, by simp⟩
  | cons ev rest ih =>
    intro file₀ hes hch hids
    have hev : eventIdsOk mid rid ev := hes ev (by simp)
    obtain ⟨hch', hids'⟩ := append_preserves_chain file₀ ev hev hch hids
    obtain ⟨file₁, hfold, h1, h2, h3⟩ :=
      ih (file₀ ++ [appendedEvent file₀ ev])
        (fun e he => hes e (by simp [he])) hch' hids'
    refine ⟨file₁, ?_, h1, h2, by simp [h3]; omega⟩
    simpa [List.foldlM, appendAudit_ok file₀ ev hev] using hfold

/-- The verifier's per-event loop reports nothing on a hash-chained,
schema-valid, id-consistent file. -/
theorem verify_clean {schemaOk : JvPairs → Bool} {path mid rid : String} :
    ∀ (es : List JvPairs) (idx : Nat) (p : Jv),
      ChainFrom p es →
      (∀ e ∈ es, schemaOk e = true) →
      (∀ e ∈ es, eventIdsOk mid rid e) →
      verifyAux schemaOk path mid rid idx p es = []
  | [], _, _, _, _, _ => rfl
  | e :: rest, idx, p, hch, hs, hi => by
    obtain ⟨hprev, hhash, hch'⟩ := hch
    obtain ⟨hm, hr⟩ := hi e (by simp)
    have hse : schemaOk e = true := hs e (by simp)
    have tail :=
      @verify_clean schemaOk path mid rid rest (idx + 1) (pyGet e "event_hash")
        hch' (fun x hx => hs x (by simp [hx])) (fun x hx => hi x (by simp [hx]))
    rw [hhash] at tail
    simp [verifyAux, hse, hm, hr, hprev, hhash, jvPyStr_str, tail]

/-- Replacing one event of a chained file with a tampered event whose
stored hashes are kept but whose recomputed hash differs yields exactly
the `event_hash mismatch` error for that line. -/
theorem verify_tamper {schemaOk : JvPairs → Bool} {path mid rid : String}
    {e' : JvPairs} (hse' : schemaOk e' = true)
    (hide' : eventIdsOk mid rid e') :
    ∀ (xs : List JvPairs) (orig : JvPairs) (ys : List JvPairs)
      (idx : Nat) (p : Jv),
      ChainFrom p (xs ++ orig :: ys) →
      (∀ e ∈ xs ++ orig :: ys, schemaOk e = true) →
      (∀ e ∈ xs ++ orig :: ys, eventIdsOk mid rid e) →
      pyGet e' "event_hash" = pyGet orig "event_hash" →
      pyGet e' "prev_event_hash" = pyGet orig "prev_event_hash" →
      eventHashOf e' ≠ eventHashOf orig →
      verifyAux schemaOk path mid rid idx p (xs ++ e' :: ys) =
        [path ++ ":" ++ toString (idx + xs.length) ++
          ": event_hash mismatch: " ++ jvPyStr (pyGet e' "event_hash") ++
          " != " ++ eventHashOf e']
  | [], orig, ys, idx, p, hch, hs, hi, heh, hprev', hne => by
    obtain ⟨hprev, hhash, hch'⟩ := hch
    obtain ⟨hm, hr⟩ := hide'
    have hstored : pyGet e' "event_hash" = .str (eventHashOf orig) := by
      rw [heh, hhash]
    have hcond : pyGet e' "event_hash" ≠ .str (eventHashOf e') := by
      rw [hstored]
      exact fun hc => hne (Jv.str.inj hc).symm
    have tail : verifyAux schemaOk path mid rid (idx + 1)
        (pyGet e' "event_hash") ys = [] := by
      rw [heh]
      exact @verify_clean schemaOk path mid rid ys (idx + 1)
        (pyGet orig "event_hash") hch'
        (fun x hx => hs x (by simp [hx])) (fun x hx => hi x (by simp [hx]))
    simp [verifyAux, hse', hm, hr, hprev', hprev, hcond, jvPyStr_str, tail]
  | x :: xs, orig, ys, idx, p, hch, hs, hi, heh, hprev', hne => by
    obtain ⟨hxprev, hxhash, hch'⟩ := hch
    obtain ⟨hxm, hxr⟩ := hi x (by simp)
    have hsx : schemaOk x = true := hs x (by simp)
    have tail :=
      @verify_tamper schemaOk path mid rid e' hse' hide' xs orig ys (idx + 1)
        (pyGet x "event_hash") hch' (fun e he => hs e (by simp [he]))
        (fun e he => hi e (by simp [he])) heh hprev' hne
    have harith : idx + 1 + xs.length = idx + (xs.length + 1) := by omega
    rw [hxhash, harith] at tail
    simp [verifyAux, hsx, hxm, hxr, hxprev, hxhash, jvPyStr_str, tail]

/-- C2: every audit line appended by `FileAuditLogger.append` to one
`(message_id, run_id)` file has `prev_event_hash` equal to the previous
line's `event_hash` (null at line 1) and `event_hash` equal to the
SHA-256 of the canonical JSON of the event without `event_hash`
(`ChainFrom Jv.null file`); `verify_audit_logs` reports no errors on
such a file (given the external `jsonschema` validator accepts the
events); and replacing line `i` by a tampered event that keeps the
stored hashes but whose recomputed `event_hash` differs (as any
modification of a field such as `stage` does, short of a SHA-256
collision) makes the verifier report exactly the `event_hash mismatch`
error for that line. -/
theorem audit_chain_verify_and_tamper
    (schemaOk : JvPairs → Bool) (path mid rid : String)
    (es file : List JvPairs) (i : Nat) (e' : JvPairs)
    (hes : es ≠ [])
    (hids : ∀ ev ∈ es, eventIdsOk mid rid ev)
    (hfold : appendAll es = .ok file)
    (hschema : ∀ e ∈ file, schemaOk e = true)
    (hi : i < file.length)
    (hse' : schemaOk e' = true)
    (hide' : eventIdsOk mid rid e')
    (hehEq : pyGet e' "event_hash" = pyGet file[i] "event_hash")
    (hprevEq : pyGet e' "prev_event_hash" = pyGet file[i] "prev_event_hash")
    (hne : eventHashOf e' ≠ eventHashOf file[i]) :
    ChainFrom .null file ∧
    verifyAuditFile schemaOk path mid rid file = [] ∧
    verifyAuditFile schemaOk path mid rid (file.set i e') =
      [path ++ ":" ++ toString (1 + i) ++ ": event_hash mismatch: " ++
        jvPyStr (pyGet e' "event_hash") ++ " != " ++ eventHashOf e'] := by
  obtain ⟨file₁, hf, hch, hidsf, hlen⟩ :=
    @appendAll_ok mid rid es [] hids trivial (by simp)
  rw [appendAll] at hfold
  rw [hfold] at hf
  obtain rfl : file = file₁ := by
    have := hf
    simp only [Except.ok.injEq] at this
    exact this
  have hnonempty : file ≠ [] := by
    intro hcontra
    rw [hcontra] at hlen
    exact hes (List.eq_nil_of_length_eq_zero (by simpa using hlen.symm))
  have hsplit : file = file.take i ++ file[i] :: file.drop (i + 1) := by
    conv_lhs => rw [← List.take_append_drop i file]
    rw [List.getElem_cons_drop]
  have hlentake : (file.take i).length = i := by
    simp [List.length_take, Nat.min_eq_left hi.le]
  refine ⟨hch, ?_, ?_⟩
  · rw [verifyAuditFile, if_neg (by simpa [List.isEmpty_iff] using hnonempty)]
    exact verify_clean file 1 .null hch hschema hidsf
  · rw [List.set_eq_take_cons_drop e' hi, verifyAuditFile,
      if_neg (by simp [List.isEmpty_iff])]
    have := @verify_tamper schemaOk path mid rid e' hse' hide'
      (file.take i) (file[i]) (file.drop (i + 1)) 1 .null
      (by rw [← hsplit]; exact hch)
      (fun e he => hschema e (by rw [hsplit]; exact he))
      (fun e he => hidsf e (by rw [hsplit]; exact he))
      hehEq hprevEq hne
    rw [this, hlentake]

/-- First appended witness event, before `append` adds the hashes. -/
def c2Ev1 : JvPairs :=
  .ofList [("message_id", .str "m"), ("run_id", .str "r"),
    ("stage", .str "INGEST")]

/-- Second appended witness event. -/
def c2Ev2 : JvPairs :=
  .ofList [("message_id", .str "m"), ("run_id", .str "r"),
    ("stage", .str "NORMALIZE")]

/-- The audit file the two appends produce (hash values as computed by
`eventHashOf`; `appendAll [c2Ev1, c2Ev2] = .ok c2WitnessFile` is checked
in the witness). -/
def c2WitnessFile : List JvPairs :=
  [.ofList [("message_id", .str "m"), ("run_id", .str "r"),
     ("stage", .str "INGEST"), ("prev_event_hash", .null),
     ("event_hash", .str "sha256:f03a8b289af2f397d811691484fb01151f4a0c60118e7f2e304d6bfaa79f8d7d")],
   .ofList [("message_id", .str "m"), ("run_id", .str "r"),
     ("stage", .str "NORMALIZE"),
     ("prev_event_hash", .str "sha256:f03a8b289af2f397d811691484fb01151f4a0c60118e7f2e304d6bfaa79f8d7d"),
     ("event_hash", .str "sha256:3308c10a781d61dc1819d3391056b2a51d7fcf4b483163ea471dd2109d15572f")]]

/-- Line 2 of the witness file with its `stage` edited afterwards, the
stored hashes untouched. -/
def c2Tampered : JvPairs :=
  .ofList [("message_id", .str "m"), ("run_id", .str "r"),
    ("stage", .str "ROUTE"),
    ("prev_event_hash", .str "sha256:f03a8b289af2f397d811691484fb01151f4a0c60118e7f2e304d6bfaa79f8d7d"),
    ("event_hash", .str "sha256:3308c10a781d61dc1819d3391056b2a51d7fcf4b483163ea471dd2109d15572f")]

/-- Witness for `audit_chain_verify_and_tamper`: two concrete appends,
a clean verification, and tamper detection after editing `stage` of
line 2. -/
theorem audit_chain_verify_and_tamper_witness :
    ChainFrom .null c2WitnessFile ∧
    verifyAuditFile (fun _ => true) "audit/m/r.jsonl" "m" "r"
      c2WitnessFile = [] ∧
    verifyAuditFile (fun _ => true) "audit/m/r.jsonl" "m" "r"
      (c2WitnessFile.set 1 c2Tampered) =
      ["audit/m/r.jsonl" ++ ":" ++ toString (1 + 1) ++
        ": event_hash mismatch: " ++
        jvPyStr (pyGet c2Tampered "event_hash") ++ " != " ++
        eventHashOf c2Tampered] :=
  audit_chain_verify_and_tamper (fun _ => true) "audit/m/r.jsonl" "m" "r"
    [c2Ev1, c2Ev2] c2WitnessFile 1 c2Tampered
    (by decide) (by decide) rfl (fun e _ => rfl) (by decide)
    rfl (by decide) (by decide) (by decide) (by decide)

/-! ## C1: the content-addressed write protocol -/

/-- The path `put_bytes` writes `data` under. -/
def relOf (kind : String) (data : List Nat) (fe : Option String) : String :=
  "raw_store/" ++ kind ++ "/" ++ sha256Hex data ++ fe.getD ""

/-- The canonical bytes `submit_correction` expects at an existing
correction path. -/
def corrBytesOf (record : Jv) : List Nat :=
  strBytes (dumps2 record) ++ strBytes "\n"

/-- C1 (amended): at an existing path, `FileRawStore.put_bytes` and the
correction write of `HitlService.submit_correction` compare SHA-256
digests — a differing digest fails with the immutability-violation
error, and equal bytes return the existing reference with the store
unchanged; the attachment stage's artifact write, however, performs no
comparison at all: an existing artifact file is returned as-is,
whatever the new payload. -/
theorem content_addressed_write_protocol
    (store : FsState) (kind : String) (data existingRaw : List Nat)
    (fe : Option String)
    (hitl : FsState) (corrPath : String) (record : Jv)
    (existingCorr : List Nat)
    (outDir : FsState) (artPath : String) (payload existingArt : List Nat)
    (hkind : (kind = "" || strHasSub kind "/" || strHasSub kind "\\") = false)
    (hext : (match fe with
             | some e => e ≠ "" && ¬ strStartsWith e "."
             | none => false) = false)
    (hraw : fsGet store (relOf kind data fe) = some existingRaw)
    (hcorr : fsGet hitl corrPath = some existingCorr)
    (hart : fsGet outDir artPath = some existingArt) :
    put_bytes store kind data fe =
      (if sha256_prefixed existingRaw ≠ sha256_prefixed data then
        .error "immutability violation: existing content mismatch"
      else
        .ok (store, ⟨relOf kind data fe, sha256_prefixed data, data.length⟩)) ∧
    submit_correction_write hitl corrPath record =
      (if sha256_prefixed existingCorr ≠ sha256_prefixed (corrBytesOf record)
      then
        .error
          "immutability violation: correction record exists with different content"
      else .ok (hitl, corrPath)) ∧
    artifact_write outDir artPath payload = (outDir, existingArt) := by
  refine ⟨?_, ?_, ?_⟩
  · rw [relOf] at hraw
    rcases fe with _ | e
    · simp at hraw
      simp [put_bytes, hkind, hraw, relOf]
    · simp at hraw
      simp only [ne_eq, decide_not] at hext
      simp at hext
      by_cases he : e = ""
      · subst he
        simp at hraw
        simp [put_bytes, hkind, hraw, relOf]
      · simp [put_bytes, hkind, hraw, relOf, he, hext he]
  · simp [submit_correction_write, hcorr, corrBytesOf]
  · rw [artifact_write, hart]

/-- Concrete store states for the witness: the raw path holds the same
bytes (replay), the correction path holds different bytes. -/
def c1RawStore : FsState := [(relOf "mime" [1, 2, 3] none, [1, 2, 3])]

/-- Correction store holding bytes that differ from the record's
canonical bytes. -/
def c1CorrStore : FsState := [("c.correction.json", strBytes "old")]

/-- Attachment artifact dir holding bytes that differ from any payload
used below. -/
def c1ArtStore : FsState := [("a.artifact.json", strBytes "tampered")]

/-- Witness for `content_addressed_write_protocol`: a byte-equal raw
replay returns the existing reference, a differing correction record
fails with the immutability error, and the artifact write returns the
existing bytes unchecked. -/
theorem content_addressed_write_protocol_witness :
    put_bytes c1RawStore "mime" [1, 2, 3] none =
      (if sha256_prefixed [1, 2, 3] ≠ sha256_prefixed [1, 2, 3] then
        .error "immutability violation: existing content mismatch"
      else
        .ok (c1RawStore,
          ⟨relOf "mime" [1, 2, 3] none, sha256_prefixed [1, 2, 3], 3⟩)) ∧
    submit_correction_write c1CorrStore "c.correction.json" (.obj .nil) =
      (if sha256_prefixed (strBytes "old") ≠
          sha256_prefixed (corrBytesOf (.obj .nil)) then
        .error
          "immutability violation: correction record exists with different content"
      else .ok (c1CorrStore, "c.correction.json")) ∧
    artifact_write c1ArtStore "a.artifact.json" (strBytes "new payload") =
      (c1ArtStore, strBytes "tampered") :=
  content_addressed_write_protocol c1RawStore "mime" [1, 2, 3] [1, 2, 3]
    none c1CorrStore "c.correction.json" (.obj .nil) (strBytes "old")
    c1ArtStore "a.artifact.json" (strBytes "new payload")
    (strBytes "tampered") rfl rfl (by decide) (by decide) (by decide)

/-- Stage context for the counterexample run: clean AV, no OCR, opaque
externals fixed to concrete functions. -/
def c1Ctx : StageCtx :=
  { avScan := fun _ _ _ => "CLEAN"
    ocrProc := none
    mimeGuess := fun _ => none
    isUuid := fun s => s = "123e4567-e89b-12d3-a456-426614174000"
    uuid5 := fun _ => "00000000-0000-0000-0000-000000000000"
    decodeUtf8Replace := fun _ => ""
    pathSuffix := fun _ => ".bin"
    floatRepr := fun _ => "0.5"
    schema_id := "u:a:1"
    schema_version := "1" }

/-- The counterexample attachment (source id already a UUID, binary
mime so neither text extraction nor OCR applies). -/
def c1Att : AttachmentInput :=
  ⟨"123e4567-e89b-12d3-a456-426614174000", "a.bin",
    "application/octet-stream", [1, 2, 3]⟩

/-- The artifact path this attachment uses. -/
def c1ArtPath : String :=
  "123e4567-e89b-12d3-a456-426614174000.artifact.json"

/-- Out-dir already holding different bytes at the artifact path. -/
def c1TamperedDir : FsState := [(c1ArtPath, strBytes "tampered")]

/-- The run against the tampered dir. -/
def c1Replay :
    Except String
      (FsState × FsState × FsState × AttachmentArtifact × ProcessedAttachment) :=
  processAttachment c1Ctx [] [] c1TamperedDir "m1" "2024-01-01T00:00:00Z" c1Att

/-- The same run against an empty dir (to exhibit the payload the stage
would have written). -/
def c1Fresh :
    Except String
      (FsState × FsState × FsState × AttachmentArtifact × ProcessedAttachment) :=
  processAttachment c1Ctx [] [] [] "m1" "2024-01-01T00:00:00Z" c1Att

/-- Out-dir state of a stage result. -/
def stageOutDir
    (r : Except String
      (FsState × FsState × FsState × AttachmentArtifact × ProcessedAttachment)) :
    Option FsState :=
  r.toOption.map fun x => x.2.2.1

/-- Artifact-reference hash of a stage result. -/
def stageOutRefSha
    (r : Except String
      (FsState × FsState × FsState × AttachmentArtifact × ProcessedAttachment)) :
    Option String :=
  r.toOption.map fun x => x.2.2.2.2.artifact_ref.sha256

/-- Counterexample to C1 as stated: with an existing artifact file whose
bytes differ from the payload the stage serializes (last conjunct),
`process_message` does not fail — it succeeds, leaves the directory
unchanged and emits a reference to the existing bytes.  No
`IMMUTABILITY_VIOLATION` is raised for the attachment stage artifact. -/
theorem attachment_artifact_write_unchecked :
    stageOutDir c1Replay = some c1TamperedDir ∧
    stageOutRefSha c1Replay = some (sha256_prefixed (strBytes "tampered")) ∧
    (stageOutDir c1Fresh).bind (fun d => fsGet d c1ArtPath) ≠
      some (strBytes "tampered") := by
  refine ⟨by decide, by decide, by decide⟩

/-! ## Canonicalization (`_canonicalize_text`,
`src/ieim/normalize/normalized_message.py` lines 38-40) -/

/-- CPython `str.lower`'s full Unicode lowercase mapping, on the code
points this development exercises: ASCII letters, the Latin-1 uppercase
block, and U+0130 LATIN CAPITAL LETTER I WITH DOT ABOVE, which maps to
the two code points U+0069 U+0307 (SpecialCasing.txt); other characters
are returned unchanged (the theorems below never depend on them). -/
def pythonLowerChar (c : Char) : List Char :=
  if 65 ≤ c.toNat ∧ c.toNat ≤ 90 then [Char.ofNat (c.toNat + 32)]
  else if c.toNat = 0x130 then [Char.ofNat 0x69, Char.ofNat 0x307]
  else if 0xC0 ≤ c.toNat ∧ c.toNat ≤ 0xDE ∧ c.toNat ≠ 0xD7 then
    [Char.ofNat (c.toNat + 32)]
  else [c]

/-- Python `text.lower()`. -/
def pythonLower (text : String) : String :=
  ⟨(text.data.map pythonLowerChar).flatten⟩

/-- Embeds `_canonicalize_text`: `return text.lower()` (its comment
reads "Lowercasing keeps offsets stable for evidence spans"). -/
def canonicalize_text (text : String) : String := pythonLower text

/-! ## Evidence spans and the deterministic classifier's risk flags
(`src/ieim/classify/classifier.py`: `_evidence_span`, `_find_span`,
`_first_20_chars_span`, `_first_word_span` lines 57-86, and the
risk-flag cascade of `DeterministicClassifier.classify` lines
119-198). -/

/-- Python `text[start:stop]` (character slicing, as `str` indexing
works on code points). -/
def pySlice (text : String) (start stop : Nat) : String :=
  ⟨(text.data.drop start).take (stop - start)⟩

/-- An evidence span as `_evidence_span` builds it (`stop` is the
source's `end` field). -/
structure EvidenceSpan where
  source : String
  start : Nat
  stop : Nat
  snippet_redacted : String
  snippet_sha256 : String
deriving DecidableEq

/-- Embeds `_evidence_span`: the snippet is the literal slice and the
sha is of that snippet. -/
def evidence_span (source : String) (start stop : Nat) (text : String) :
    EvidenceSpan :=
  let snippet := pySlice text start stop
  ⟨source, start, stop, snippet, sha256_prefixed (strBytes snippet)⟩

/-- Embeds `_find_span`: first occurrence of `needle`, else `None`. -/
def find_span (source : String) (text needle : String) :
    Option EvidenceSpan :=
  match findSub text.data needle.data with
  | none => none
  | some idx =>
    some (evidence_span source idx (idx + needle.data.length) text)

/-- Embeds `_first_20_chars_span`. -/
def first_20_chars_span (source : String) (text : String) : EvidenceSpan :=
  evidence_span source 0 (min 20 text.data.length) text

/-- Python `ch.isspace()` on the whitespace the embedded texts use. -/
def pyIsSpace (c : Char) : Bool :=
  c = ' ' || c = Char.ofNat 9 || c = Char.ofNat 10 || c = Char.ofNat 13 ||
    c = Char.ofNat 11 || c = Char.ofNat 12

/-- Index of the first whitespace character, if any. -/
def firstSpaceIdx : List Char → Option Nat
  | [] => none
  | c :: rest =>
    if pyIsSpace c then some 0 else (firstSpaceIdx rest).map (· + 1)

/-- Embeds `_first_word_span`: from 0 to the first whitespace (or the
whole text). -/
def first_word_span (source : String) (text : String) : EvidenceSpan :=
  evidence_span source 0 ((firstSpaceIdx text.data).getD text.data.length)
    text

/-- A classification flag (intent or risk) with its evidence. -/
structure Flag where
  label : String
  confidence : Rat
  evidence : List EvidenceSpan
deriving DecidableEq

/-- The risk-flag cascade of `DeterministicClassifier.classify`
(lines 119-198), translated clause by clause: the list starts empty,
the malware clause appends unconditionally on a non-clean attachment,
and every later clause is guarded by `if not risk_flags`. -/
def classifyRiskFlags (supported_languages : List String)
    (language subject_c14n body_c14n : String)
    (attachments_av : List String) : List Flag :=
  let has_nonclean := attachments_av.any fun s => s ≠ "" && s ≠ "CLEAN"
  let flags : List Flag :=
    if has_nonclean then
      let span :=
        match find_span "BODY_C14N" body_c14n "anbei" with
        | some sp => sp
        | none =>
          (find_span "SUBJECT_C14N" subject_c14n "anbei").getD
            (first_word_span "SUBJECT_C14N" subject_c14n)
      [⟨"RISK_SECURITY_MALWARE", 95/100, [span]⟩]
    else []
  let flags :=
    if flags.isEmpty &&
        (language ≠ "" && ¬ supported_languages.contains language) then
      flags ++ [⟨"RISK_LANGUAGE_UNSUPPORTED", 95/100,
        [first_word_span "SUBJECT_C14N" subject_c14n]⟩]
    else flags
  let flags :=
    if flags.isEmpty && strHasSub body_c14n "ombudsmann" then
      flags ++ [⟨"RISK_REGULATORY", 8/10,
        match find_span "BODY_C14N" body_c14n "ombudsmann" with
        | some sp => [sp]
        | none => [first_20_chars_span "BODY_C14N" body_c14n]⟩]
    else flags
  let flags :=
    if flags.isEmpty && strHasSub body_c14n "iban" then
      flags ++ [⟨"RISK_PRIVACY_SENSITIVE", 85/100,
        match find_span "BODY_C14N" body_c14n "iban" with
        | some sp => [sp]
        | none => [first_20_chars_span "BODY_C14N" body_c14n]⟩]
    else flags
  let flags :=
    if flags.isEmpty && strHasSub body_c14n "dsgvo" then
      flags ++ [⟨"RISK_PRIVACY_SENSITIVE", 8/10,
        match find_span "BODY_C14N" body_c14n "dsgvo" with
        | some sp => [sp]
        | none => [first_20_chars_span "BODY_C14N" body_c14n]⟩]
    else flags
  let flags :=
    if flags.isEmpty && strHasSub body_c14n "frist" then
      flags ++ [⟨"RISK_LEGAL_THREAT", 9/10,
        match find_span "BODY_C14N" body_c14n "frist" with
        | some sp => [sp]
        | none => [first_20_chars_span "BODY_C14N" body_c14n]⟩]
    else flags
  let flags :=
    if flags.isEmpty && strHasSub body_c14n "automatically generated" then
      flags ++ [⟨"RISK_AUTOREPLY_LOOP", 8/10,
        match find_span "BODY_C14N" body_c14n "automatically generated" with
        | some sp => [sp]
        | none => [first_20_chars_span "BODY_C14N" body_c14n]⟩]
    else flags
  flags

/-- On schema-valid AV statuses, the code's truthiness guard
`s and s != "CLEAN"` is just `s != "CLEAN"`. -/
theorem any_nonclean_of_valid :
    ∀ (l : List String),
      (∀ s ∈ l, s = "CLEAN" ∨ s = "INFECTED" ∨ s = "SUSPICIOUS" ∨
        s = "FAILED") →
      (l.any fun s => s ≠ "" && s ≠ "CLEAN") = l.any fun s => s ≠ "CLEAN"
  | [], _ => rfl
  | a :: t, h => by
    have ih := any_nonclean_of_valid t (fun s hs => h s (by simp [hs]))
    rcases h a (by simp) with ha | ha | ha | ha <;> subst ha <;>
      simp <;> simpa using ih

/-- C5: over any canonical texts and any schema-valid attachment
statuses, the deterministic classifier emits at most one risk flag, and
its label is decided by the fixed first-match order: non-clean
attachment, unsupported language, `ombudsmann`, `iban`/`dsgvo`,
`frist`, `automatically generated`. -/
theorem risk_flag_precedence (supported_languages : List String)
    (language subject_c14n body_c14n : String) (avs : List String)
    (hav : ∀ s ∈ avs, s = "CLEAN" ∨ s = "INFECTED" ∨ s = "SUSPICIOUS" ∨
      s = "FAILED") :
    ((classifyRiskFlags supported_languages language subject_c14n body_c14n
        avs).map Flag.label =
      (if avs.any (fun s => s ≠ "CLEAN") then ["RISK_SECURITY_MALWARE"]
       else if language ≠ "" && ¬ supported_languages.contains language then
         ["RISK_LANGUAGE_UNSUPPORTED"]
       else if strHasSub body_c14n "ombudsmann" then ["RISK_REGULATORY"]
       else if strHasSub body_c14n "iban" || strHasSub body_c14n "dsgvo" then
         ["RISK_PRIVACY_SENSITIVE"]
       else if strHasSub body_c14n "frist" then ["RISK_LEGAL_THREAT"]
       else if strHasSub body_c14n "automatically generated" then
         ["RISK_AUTOREPLY_LOOP"]
       else [])) ∧
    (classifyRiskFlags supported_languages language subject_c14n body_c14n
      avs).length ≤ 1 := by
  have hnc := any_nonclean_of_valid avs hav
  have hmap : (classifyRiskFlags supported_languages language subject_c14n
      body_c14n avs).map Flag.label =
      (if avs.any (fun s => s ≠ "CLEAN") then ["RISK_SECURITY_MALWARE"]
       else if language ≠ "" && ¬ supported_languages.contains language then
         ["RISK_LANGUAGE_UNSUPPORTED"]
       else if strHasSub body_c14n "ombudsmann" then ["RISK_REGULATORY"]
       else if strHasSub body_c14n "iban" || strHasSub body_c14n "dsgvo" then
         ["RISK_PRIVACY_SENSITIVE"]
       else if strHasSub body_c14n "frist" then ["RISK_LEGAL_THREAT"]
       else if strHasSub body_c14n "automatically generated" then
         ["RISK_AUTOREPLY_LOOP"]
       else []) := by
    simp only [classifyRiskFlags]
    rw [← hnc]
    generalize (avs.any fun s => s ≠ "" && s ≠ "CLEAN") = b1
    generalize (language ≠ "" && ¬ supported_languages.contains language) = b2
    generalize strHasSub body_c14n "ombudsmann" = b3
    generalize strHasSub body_c14n "iban" = b4
    generalize strHasSub body_c14n "dsgvo" = b5
    generalize strHasSub body_c14n "frist" = b6
    generalize strHasSub body_c14n "automatically generated" = b7
    cases b1 <;> cases b2 <;> cases b3 <;> cases b4 <;> cases b5 <;>
      cases b6 <;> cases b7 <;> simp
  refine ⟨hmap, ?_⟩
  rw [← List.length_map (classifyRiskFlags supported_languages language
    subject_c14n body_c14n avs) Flag.label, hmap]
  split_ifs <;> simp

/-- Witness for `risk_flag_precedence`: a body containing both `iban`
and `frist` yields only `RISK_PRIVACY_SENSITIVE`. -/
theorem risk_flag_precedence_witness :
    ((classifyRiskFlags ["de", "en"] "de" "betreff"
        "bitte iban und frist beachten" ["CLEAN"]).map Flag.label =
      (if (["CLEAN"] : List String).any (fun s => s ≠ "CLEAN") then
        ["RISK_SECURITY_MALWARE"]
       else if ("de" : String) ≠ "" && ¬ (["de", "en"] : List String).contains "de" then
         ["RISK_LANGUAGE_UNSUPPORTED"]
       else if strHasSub "bitte iban und frist beachten" "ombudsmann" then
         ["RISK_REGULATORY"]
       else if strHasSub "bitte iban und frist beachten" "iban" ||
           strHasSub "bitte iban und frist beachten" "dsgvo" then
         ["RISK_PRIVACY_SENSITIVE"]
       else if strHasSub "bitte iban und frist beachten" "frist" then
         ["RISK_LEGAL_THREAT"]
       else if strHasSub "bitte iban und frist beachten"
           "automatically generated" then
         ["RISK_AUTOREPLY_LOOP"]
       else [])) ∧
    (classifyRiskFlags ["de", "en"] "de" "betreff"
      "bitte iban und frist beachten" ["CLEAN"]).length ≤ 1 :=
  risk_flag_precedence ["de", "en"] "de" "betreff"
    "bitte iban und frist beachten" ["CLEAN"] (by decide)

/-! ## The deterministic extractor
(`DeterministicExtractor.extract`, `src/ieim/extract/extractor.py`).

The module's five regular expressions are compiled to direct
scanners.  `\w` (for `\b`) and the case mappings are Unicode-wide in
Python; here they cover ASCII plus the German letters the patterns use
(`ä ö ü ß`), which is exact on every text the theorems touch. -/

/-- Python `\w` on the characters in scope. -/
def isWordChar (c : Char) : Bool :=
  c.isAlphanum || c = '_' || c = 'ä' || c = 'ö' || c = 'ü' || c = 'ß'

/-- `\b` state after a match whose last character is `cLast`, looking
at the remaining text. -/
def bAfterChar (cLast : Char) (rest : List Char) : Bool :=
  match rest with
  | [] => isWordChar cLast
  | c :: _ => isWordChar cLast != isWordChar c

/-- `\b` before a match whose first character is a word character. -/
def bBefore (prev : Option Char) : Bool :=
  match prev with
  | none => true
  | some c => ¬ isWordChar c

/-- Exactly `n` ASCII digits. -/
def takeDigits : Nat → List Char → Option (List Char × List Char)
  | 0, cs => some ([], cs)
  | _ + 1, [] => none
  | n + 1, c :: cs =>
    if c.isDigit then (takeDigits n cs).map (fun p => (c :: p.1, p.2))
    else none

/-- A literal character sequence. -/
def matchLit : List Char → List Char → Option (List Char)
  | [], cs => some cs
  | _ :: _, [] => none
  | l :: ls, c :: cs => if c = l then matchLit ls cs else none

/-- The maximal run of class characters (greedy `X*`). -/
def takeClassRun (p : Char → Bool) : List Char → List Char × List Char
  | [] => ([], [])
  | c :: cs =>
    if p c then
      let r := takeClassRun p cs
      (c :: r.1, r.2)
    else ([], c :: cs)

/-- Backtrack a greedy run (given reversed) down to the longest prefix
of length ≥ 2 whose trailing `\b` holds. -/
def shrinkRev : List Char → List Char → Option (List Char × List Char)
  | [], _ => none
  | c :: revRest, rest =>
    if bAfterChar c rest && !revRest.isEmpty then
      some ((c :: revRest).reverse, rest)
    else shrinkRev revRest (c :: rest)

/-- `re.search`: leftmost position where the position matcher
succeeds. -/
def searchFrom {α : Type} (f : Option Char → List Char → Nat → Option α) :
    Option Char → List Char → Nat → Option α
  | prev, cs, i =>
    match f prev cs i with
    | some r => some r
    | none =>
      match cs with
      | [] => none
      | c :: rest => searchFrom f (some c) rest (i + 1)

/-- `re.search` over a string from position 0. -/
def reSearch {α : Type} (f : Option Char → List Char → Nat → Option α)
    (text : String) : Option α :=
  searchFrom f none text.data 0

/-- `\b(?P<num>\d{2}-\d{7})\b` at one position: (start, end, num). -/
def policyAt (prev : Option Char) (cs : List Char) (i : Nat) :
    Option (Nat × Nat × String) :=
  if ¬ bBefore prev then none
  else
    match takeDigits 2 cs with
    | none => none
    | some (d1, r1) =>
      match r1 with
      | '-' :: r2 =>
        (match takeDigits 7 r2 with
         | none => none
         | some (d2, r3) =>
           if bAfterChar (d2.getLastD '0') r3 then
             some (i, i + 10, ⟨d1 ++ '-' :: d2⟩)
           else none)
      | _ => none

/-- `\b(?P<clm>clm-\d{4}-\d{4})\b` at one position. -/
def claimAt (prev : Option Char) (cs : List Char) (i : Nat) :
    Option (Nat × Nat × String) :=
  if ¬ bBefore prev then none
  else
    match matchLit ['c', 'l', 'm', '-'] cs with
    | none => none
    | some r1 =>
      match takeDigits 4 r1 with
      | none => none
      | some (d1, r2) =>
        match r2 with
        | '-' :: r3 =>
          (match takeDigits 4 r3 with
           | none => none
           | some (d2, r4) =>
             if bAfterChar (d2.getLastD '0') r4 then
               some (i, i + 13, ⟨'c' :: 'l' :: 'm' :: '-' :: d1 ++ '-' :: d2⟩)
             else none)
        | _ => none

/-- `\b(?P<date>\d{4}-\d{2}-\d{2})\b` at one position. -/
def dateAt (prev : Option Char) (cs : List Char) (i : Nat) :
    Option (Nat × Nat × String) :=
  if ¬ bBefore prev then none
  else
    match takeDigits 4 cs with
    | none => none
    | some (d1, r1) =>
      match r1 with
      | '-' :: r2 =>
        (match takeDigits 2 r2 with
         | none => none
         | some (d2, r3) =>
           match r3 with
           | '-' :: r4 =>
             (match takeDigits 2 r4 with
              | none => none
              | some (d3, r5) =>
                if bAfterChar (d3.getLastD '0') r5 then
                  some (i, i + 10, ⟨d1 ++ '-' :: d2 ++ '-' :: d3⟩)
                else none)
           | _ => none)
      | _ => none

/-- The location character class `[a-zäöüß-]`. -/
def locClass (c : Char) : Bool :=
  (97 ≤ c.toNat && c.toNat ≤ 122) || c = 'ä' || c = 'ö' || c = 'ü' ||
    c = 'ß' || c = '-'

/-- `\bort:\s+(?P<loc>[a-zäöüß-]{2,})\b` at one position: the result is
the full match's (start, end) and the captured location. -/
def ortAt (prev : Option Char) (cs : List Char) (i : Nat) :
    Option (Nat × Nat × String) :=
  if ¬ bBefore prev then none
  else
    match matchLit ['o', 'r', 't', ':'] cs with
    | none => none
    | some r1 =>
      let sp := takeClassRun pyIsSpace r1
      if sp.1.isEmpty then none
      else
        let run := takeClassRun locClass sp.2
        match shrinkRev run.1.reverse run.2 with
        | none => none
        | some (loc, _) =>
          some (i, i + 4 + sp.1.length + loc.length, ⟨loc⟩)

/-- `\bin\s+(?P<loc>[a-zäöüß-]{2,})\b` at one position: the result is
the captured group's (start, end) and the location, as the extractor
reads `start("loc")`/`end("loc")` for this rule. -/
def locInAt (prev : Option Char) (cs : List Char) (i : Nat) :
    Option (Nat × Nat × String) :=
  if ¬ bBefore prev then none
  else
    match matchLit ['i', 'n'] cs with
    | none => none
    | some r1 =>
      let sp := takeClassRun pyIsSpace r1
      if sp.1.isEmpty then none
      else
        let run := takeClassRun locClass sp.2
        match shrinkRev run.1.reverse run.2 with
        | none => none
        | some (loc, _) =>
          some (i + 2 + sp.1.length, i + 2 + sp.1.length + loc.length, ⟨loc⟩)

/-- ASCII letter (the `IGNORECASE` `[A-Z]`). -/
def asciiAlpha (c : Char) : Bool :=
  (65 ≤ c.toNat && c.toNat ≤ 90) || (97 ≤ c.toNat && c.toNat ≤ 122)

/-- ASCII letter or digit (the `IGNORECASE` `[A-Z0-9]`). -/
def asciiAlnum (c : Char) : Bool := asciiAlpha c || c.isDigit

/-- `\b(?P<iban>[A-Z]{2}\d{2}[A-Z0-9]{10,30})\b` with `IGNORECASE` at
one position.  The greedy run admits no partial backtrack (every
shorter cut ends before a word character), so the position matches
exactly when the alphanumeric run after the four header characters has
length 10..30 and ends at a `\b`. -/
def ibanAt (prev : Option Char) (cs : List Char) (i : Nat) :
    Option (Nat × Nat × String) :=
  if ¬ bBefore prev then none
  else
    match cs with
    | c1 :: c2 :: r1 =>
      if asciiAlpha c1 && asciiAlpha c2 then
        match takeDigits 2 r1 with
        | none => none
        | some (dd, r2) =>
          let run := takeClassRun asciiAlnum r2
          if 10 ≤ run.1.length && run.1.length ≤ 30 &&
              bAfterChar (run.1.getLastD '0') run.2 then
            some (i, i + 4 + run.1.length, ⟨c1 :: c2 :: dd ++ run.1⟩)
          else none
      else none
    | _ => none

/-- CPython `str.upper` on the characters in scope (`ß` uppercases to
`SS`). -/
def pyUpperChar (c : Char) : List Char :=
  if 97 ≤ c.toNat ∧ c.toNat ≤ 122 then [Char.ofNat (c.toNat - 32)]
  else if c = 'ä' ∨ c = 'ö' ∨ c = 'ü' then [Char.ofNat (c.toNat - 32)]
  else if c = 'ß' then ['S', 'S']
  else [c]

/-- Python `s.upper()`. -/
def pythonUpper (s : String) : String :=
  ⟨(s.data.map pyUpperChar).flatten⟩

/-- Title case of one character, as `str.capitalize` applies to the
first character (`ß` title-cases to `Ss`). -/
def pyTitleChar (c : Char) : List Char :=
  if c = 'ß' then ['S', 's'] else pyUpperChar c

/-- Python `s.capitalize()`. -/
def pyCapitalize (s : String) : String :=
  match s.data with
  | [] => ""
  | c :: rest => ⟨pyTitleChar c ++ (rest.map pythonLowerChar).flatten⟩

/-- Python `s.strip()`. -/
def pyStrip (s : String) : String :=
  ⟨((s.data.dropWhile pyIsSpace).reverse.dropWhile pyIsSpace).reverse⟩

/-- Embeds `_iban_redact` (extractor.py lines 56-61): short values are
returned as stripped; longer ones become the first four and last four
characters, lowercased, joined by `…` — a fixed nine-character mask. -/
def iban_redact (value : String) : String :=
  let v := pyStrip value
  if v.data.length ≤ 8 then v
  else
    ⟨((v.data.take 4).map pythonLowerChar).flatten ++ '…' ::
      ((v.data.drop (v.data.length - 4)).map pythonLowerChar).flatten⟩

/-- `_sha256_value` / `_snippet_sha256`. -/
def sha256_value (value : String) : String :=
  sha256_prefixed (strBytes value)

/-- `_provenance` (extractor.py lines 34-41): same shape as the
classifier's evidence span, snippet supplied by the caller. -/
def provenance (source : String) (start stop : Nat) (snippet : String) :
    EvidenceSpan :=
  ⟨source, start, stop, snippet, sha256_value snippet⟩

/-- One extracted entity. -/
structure Entity where
  entity_type : String
  value : Option String
  value_redacted : String
  value_sha256 : String
  store_mode : String
  confidence : Rat
  provenance : EvidenceSpan
deriving DecidableEq

/-- A `doc_type_candidates` entry of an attachment artifact. -/
structure DocTypeCandidate where
  doc_type_label : String
  confidence : Rat
  evidence : List EvidenceSpan
deriving DecidableEq

/-- What the extractor reads from an attachment artifact dict. -/
structure ExtAttachment where
  av_status : String
  doc_type_candidates : List DocTypeCandidate
deriving DecidableEq

/-- The `ENT_POLICY_NUMBER` block (extractor.py lines 79-100): body
first, then subject. -/
def policyEntities (subject_c14n body_c14n : String) : List Entity :=
  match reSearch policyAt body_c14n with
  | some (s, e, num) =>
    [⟨"ENT_POLICY_NUMBER", some num, num, sha256_value num, "FULL", 95/100,
      provenance "BODY_C14N" s e num⟩]
  | none =>
    match reSearch policyAt subject_c14n with
    | some (s, e, num) =>
      [⟨"ENT_POLICY_NUMBER", some num, num, sha256_value num, "FULL",
        95/100, provenance "SUBJECT_C14N" s e num⟩]
    | none => []

/-- The `ENT_CLAIM_NUMBER` block (lines 102-124): subject first, value
uppercased, snippet as matched. -/
def claimEntities (subject_c14n body_c14n : String) : List Entity :=
  match reSearch claimAt subject_c14n with
  | some (s, e, raw) =>
    [⟨"ENT_CLAIM_NUMBER", some (pythonUpper raw), pythonUpper raw,
      sha256_value (pythonUpper raw), "FULL", 95/100,
      provenance "SUBJECT_C14N" s e raw⟩]
  | none =>
    match reSearch claimAt body_c14n with
    | some (s, e, raw) =>
      [⟨"ENT_CLAIM_NUMBER", some (pythonUpper raw), pythonUpper raw,
        sha256_value (pythonUpper raw), "FULL", 95/100,
        provenance "BODY_C14N" s e raw⟩]
    | none => []

/-- The `ENT_DATE` block (lines 126-144): body only. -/
def dateEntities (body_c14n : String) : List Entity :=
  match reSearch dateAt body_c14n with
  | some (s, e, dt) =>
    [⟨"ENT_DATE", some dt, dt, sha256_value dt, "FULL", 9/10,
      provenance "BODY_C14N" s e dt⟩]
  | none => []

/-- The `ENT_LOCATION` block (lines 146-182): the `ort:` rule spans the
full match but rebuilds its snippet as `"ort: "` plus the capture; the
`in` rule spans the capture itself. -/
def locationEntities (body_c14n : String) : List Entity :=
  match reSearch ortAt body_c14n with
  | some (s, e, loc) =>
    [⟨"ENT_LOCATION", some (pyCapitalize loc), pyCapitalize loc,
      sha256_value (pyCapitalize loc), "FULL", 8/10,
      provenance "BODY_C14N" s e ("ort: " ++ loc)⟩]
  | none =>
    match reSearch locInAt body_c14n with
    | some (s, e, loc) =>
      [⟨"ENT_LOCATION", some (pyCapitalize loc), pyCapitalize loc,
        sha256_value (pyCapitalize loc), "FULL", 8/10,
        provenance "BODY_C14N" s e loc⟩]
    | none => []

/-- The `ENT_IBAN` block (lines 184-204), guarded by the policy:
`value` is null under `HASH_ONLY`, `value_redacted` the fixed mask,
`value_sha256` always present, snippet the lowercased raw match. -/
def ibanEntities (iban_enabled : Bool) (iban_store_mode : String)
    (body_c14n : String) : List Entity :=
  if iban_enabled then
    match reSearch ibanAt body_c14n with
    | some (s, e, raw) =>
      [⟨"ENT_IBAN",
        (if iban_store_mode = "HASH_ONLY" then none
         else some (pythonUpper raw)),
        iban_redact (pythonUpper raw), sha256_value (pythonUpper raw),
        iban_store_mode, 85/100,
        provenance "BODY_C14N" s e (pythonLower raw)⟩]
    | none => []
  else []

/-- Per attachment, the first `DOC_PHOTO_EVIDENCE` candidate with
evidence (lines 207-233's inner loop with its `continue`s and
`break`). -/
def docEntityFor (att : ExtAttachment) : Option Entity :=
  att.doc_type_candidates.findSome? fun cand =>
    if cand.doc_type_label ≠ "DOC_PHOTO_EVIDENCE" then none
    else
      match cand.evidence with
      | [] => none
      | ev0 :: _ =>
        some ⟨"ENT_DOCUMENT_TYPE", some cand.doc_type_label,
          cand.doc_type_label, sha256_value cand.doc_type_label, "FULL",
          cand.confidence,
          provenance "ATTACHMENT_TEXT" ev0.start ev0.stop
            ev0.snippet_redacted⟩

/-- The `ENT_DOCUMENT_TYPE` block (lines 206-233): only when every
attachment is CLEAN. -/
def docTypeEntities (attachments : List ExtAttachment) : List Entity :=
  if attachments.all (fun a => a.av_status = "CLEAN") then
    attachments.filterMap docEntityFor
  else []

/-- Embeds `DeterministicExtractor.extract`'s entity list. -/
def extractor_extract (iban_enabled : Bool) (iban_store_mode : String)
    (subject_c14n body_c14n : String)
    (attachments : List ExtAttachment) : List Entity :=
  policyEntities subject_c14n body_c14n ++
    claimEntities subject_c14n body_c14n ++
    dateEntities body_c14n ++
    locationEntities body_c14n ++
    ibanEntities iban_enabled iban_store_mode body_c14n ++
    docTypeEntities attachments

/-- C9: Python's `str.lower`, as `_canonicalize_text` applies it, does
not preserve the character count or the UTF-8 byte length: `"İ"`
(U+0130) lowercases to two code points (three UTF-8 bytes, from two),
contradicting the function's own comment that lowercasing keeps
offsets stable. -/
theorem canonicalize_text_changes_length :
    (canonicalize_text "İ").data.length = 2 ∧
    ("İ" : String).data.length = 1 ∧
    (strBytes (canonicalize_text "İ")).length = 3 ∧
    (strBytes "İ").length = 2 := by
  refine ⟨by decide, by decide, by decide, by decide⟩

/-! ## C3, C8, C10, C7: extractor and stage theorems -/

/-- C3: the `ort:` rule's span covers the whole regex match while its
snippet is rebuilt as `"ort: "` plus the capture, so on a body with two
spaces after `ort:` the emitted span has
`canonical_text[start:end] ≠ snippet_redacted` — the evidence-grounding
invariant fails on a deterministic-extractor span. -/
theorem ort_snippet_breaks_grounding :
    (extractor_extract false "FULL" "" "ort:  graz" []).map
      (fun e => (e.entity_type, e.provenance.start, e.provenance.stop,
        e.provenance.snippet_redacted)) =
      [("ENT_LOCATION", 0, 10, "ort: graz")] ∧
    pySlice "ort:  graz" 0 10 = "ort:  graz" ∧
    ("ort:  graz" : String) ≠ "ort: graz" := by
  refine ⟨by decide, by decide, by decide⟩

theorem find_iban_in_policy (subject_c14n body_c14n : String) :
    (policyEntities subject_c14n body_c14n).find?
      (fun ent => ent.entity_type = "ENT_IBAN") = none := by
  unfold policyEntities
  cases h1 : reSearch policyAt body_c14n with
  | some r => obtain ⟨s, e, num⟩ := r; simp [List.find?]
  | none =>
    cases h2 : reSearch policyAt subject_c14n with
    | some r => obtain ⟨s, e, num⟩ := r; simp [List.find?]
    | none => simp [List.find?]

theorem find_iban_in_claim (subject_c14n body_c14n : String) :
    (claimEntities subject_c14n body_c14n).find?
      (fun ent => ent.entity_type = "ENT_IBAN") = none := by
  unfold claimEntities
  cases h1 : reSearch claimAt subject_c14n with
  | some r => obtain ⟨s, e, raw⟩ := r; simp [List.find?]
  | none =>
    cases h2 : reSearch claimAt body_c14n with
    | some r => obtain ⟨s, e, raw⟩ := r; simp [List.find?]
    | none => simp [List.find?]

theorem find_iban_in_date (body_c14n : String) :
    (dateEntities body_c14n).find?
      (fun ent => ent.entity_type = "ENT_IBAN") = none := by
  unfold dateEntities
  cases h1 : reSearch dateAt body_c14n with
  | some r => obtain ⟨s, e, dt⟩ := r; simp [List.find?]
  | none => simp [List.find?]

theorem find_iban_in_location (body_c14n : String) :
    (locationEntities body_c14n).find?
      (fun ent => ent.entity_type = "ENT_IBAN") = none := by
  unfold locationEntities
  cases h1 : reSearch ortAt body_c14n with
  | some r => obtain ⟨s, e, loc⟩ := r; simp [List.find?]
  | none =>
    cases h2 : reSearch locInAt body_c14n with
    | some r => obtain ⟨s, e, loc⟩ := r; simp [List.find?]
    | none => simp [List.find?]

/-- C8 (amended): whenever the IBAN pattern matches the body and the
policy is enabled, the emitted `ENT_IBAN` entity has `value` null
exactly under `HASH_ONLY` (the uppercased IBAN under `FULL`),
`value_sha256` always present over the uppercased IBAN, and
`value_redacted` equal to `_iban_redact`'s fixed mask — the first four
and last four characters lowercased around `…`, nine characters, not a
length-preserving mask. -/
theorem iban_policy_entity (iban_store_mode subject_c14n body_c14n : String)
    (atts : List ExtAttachment) (s e : Nat) (raw : String)
    (hsearch : reSearch ibanAt body_c14n = some (s, e, raw)) :
    (extractor_extract true iban_store_mode subject_c14n body_c14n
        atts).find? (fun ent => ent.entity_type = "ENT_IBAN") =
      some ⟨"ENT_IBAN",
        (if iban_store_mode = "HASH_ONLY" then none
         else some (pythonUpper raw)),
        iban_redact (pythonUpper raw), sha256_value (pythonUpper raw),
        iban_store_mode, 85/100,
        provenance "BODY_C14N" s e (pythonLower raw)⟩ := by
  rw [extractor_extract]
  simp only [List.find?_append, find_iban_in_policy, find_iban_in_claim,
    find_iban_in_date, find_iban_in_location, Option.none_or]
  rw [ibanEntities, if_pos rfl, hsearch]
  simp [List.find?]

/-- Witness for `iban_policy_entity` at a concrete body and
`HASH_ONLY`. -/
theorem iban_policy_entity_witness :
    (extractor_extract true "HASH_ONLY" ""
        "de44500105175407324931" []).find?
      (fun ent => ent.entity_type = "ENT_IBAN") =
      some ⟨"ENT_IBAN",
        (if ("HASH_ONLY" : String) = "HASH_ONLY" then none
         else some (pythonUpper "de44500105175407324931")),
        iban_redact (pythonUpper "de44500105175407324931"),
        sha256_value (pythonUpper "de44500105175407324931"),
        "HASH_ONLY", 85/100,
        provenance "BODY_C14N" 0 22
          (pythonLower "de44500105175407324931")⟩ :=
  iban_policy_entity "HASH_ONLY" "" "de44500105175407324931" [] 0 22
    "de44500105175407324931" (by decide)

/-- Counterexample to C8 as stated: the mask is nine characters for a
22-character IBAN, so `value_redacted` is not length-preserving. -/
theorem iban_mask_not_length_preserving :
    (extractor_extract true "HASH_ONLY" "" "de44500105175407324931" []).map
      (fun e => (e.entity_type, e.value, e.value_redacted)) =
      [("ENT_IBAN", none, "de44…4931")] ∧
    ("de44…4931" : String).data.length = 9 ∧
    (pythonUpper "de44500105175407324931").data.length = 22 := by
  refine ⟨by decide, by decide, by decide⟩

theorem mem_policyEntities {ent : Entity} {subject_c14n body_c14n : String}
    (h : ent ∈ policyEntities subject_c14n body_c14n) :
    ent.entity_type = "ENT_POLICY_NUMBER" := by
  unfold policyEntities at h
  cases h1 : reSearch policyAt body_c14n with
  | some r =>
    obtain ⟨s, e, num⟩ := r
    rw [h1] at h
    rcases List.mem_singleton.mp h with rfl
    rfl
  | none =>
    rw [h1] at h
    cases h2 : reSearch policyAt subject_c14n with
    | some r =>
      obtain ⟨s, e, num⟩ := r
      rw [h2] at h
      rcases List.mem_singleton.mp h with rfl
      rfl
    | none => rw [h2] at h; cases h

theorem mem_claimEntities {ent : Entity} {subject_c14n body_c14n : String}
    (h : ent ∈ claimEntities subject_c14n body_c14n) :
    ent.entity_type = "ENT_CLAIM_NUMBER" := by
  unfold claimEntities at h
  cases h1 : reSearch claimAt subject_c14n with
  | some r =>
    obtain ⟨s, e, raw⟩ := r
    rw [h1] at h
    rcases List.mem_singleton.mp h with rfl
    rfl
  | none =>
    rw [h1] at h
    cases h2 : reSearch claimAt body_c14n with
    | some r =>
      obtain ⟨s, e, raw⟩ := r
      rw [h2] at h
      rcases List.mem_singleton.mp h with rfl
      rfl
    | none => rw [h2] at h; cases h

theorem mem_dateEntities {ent : Entity} {body_c14n : String}
    (h : ent ∈ dateEntities body_c14n) : ent.entity_type = "ENT_DATE" := by
  unfold dateEntities at h
  cases h1 : reSearch dateAt body_c14n with
  | some r =>
    obtain ⟨s, e, dt⟩ := r
    rw [h1] at h
    rcases List.mem_singleton.mp h with rfl
    rfl
  | none => rw [h1] at h; cases h

theorem mem_locationEntities {ent : Entity} {body_c14n : String}
    (h : ent ∈ locationEntities body_c14n) :
    ent.entity_type = "ENT_LOCATION" := by
  unfold locationEntities at h
  cases h1 : reSearch ortAt body_c14n with
  | some r =>
    obtain ⟨s, e, loc⟩ := r
    rw [h1] at h
    rcases List.mem_singleton.mp h with rfl
    rfl
  | none =>
    rw [h1] at h
    cases h2 : reSearch locInAt body_c14n with
    | some r =>
      obtain ⟨s, e, loc⟩ := r
      rw [h2] at h
      rcases List.mem_singleton.mp h with rfl
      rfl
    | none => rw [h2] at h; cases h

theorem mem_ibanEntities {ent : Entity} {b : Bool} {m body_c14n : String}
    (h : ent ∈ ibanEntities b m body_c14n) :
    ent.entity_type = "ENT_IBAN" := by
  unfold ibanEntities at h
  cases b with
  | false => cases h
  | true =>
    rw [if_pos rfl] at h
    cases h1 : reSearch ibanAt body_c14n with
    | some r =>
      obtain ⟨s, e, raw⟩ := r
      rw [h1] at h
      rcases List.mem_singleton.mp h with rfl
      rfl
    | none => rw [h1] at h; cases h

/-- Binding an error short-circuits in the `Except` monad. -/
theorem exceptBindError {α β : Type} (msg : String)
    (f : α → Except String β) :
    (Except.error msg >>= f : Except String β) = Except.error msg := rfl

/-- Binding a success continues in the `Except` monad. -/
theorem exceptBindOk {α β : Type} (a : α) (f : α → Except String β) :
    (Except.ok a >>= f : Except String β) = f a := rfl

/-- Whether an `Except` run succeeded (decidably, for concrete runs). -/
def exceptIsOk {α : Type} : Except String α → Bool
  | .ok _ => true
  | .error _ => false

/-- A successful `processAttachment` run: its artifact is
`stageArtifact` over the extraction fields that `stageExtraction`
returned. -/
theorem processAttachment_artifact (ctx : StageCtx)
    (raw derived outDir : FsState) (message_id created_at_s : String)
    (att : AttachmentInput)
    (res : FsState × FsState × FsState × AttachmentArtifact ×
      ProcessedAttachment)
    (hr : processAttachment ctx raw derived outDir message_id created_at_s
      att = .ok res) :
    ∃ derivedA ex,
      stageExtraction ctx derived (stageAv ctx att) (stageMime ctx att)
        att.filename att.data = .ok (derivedA, ex) ∧
      res.2.2.2.1 = stageArtifact ctx message_id created_at_s att ex := by
  obtain ⟨res1, res2, res3, res4, res5⟩ := res
  unfold processAttachment at hr
  cases hput : put_bytes raw "attachments" att.data (stageRawExt ctx att) with
  | error msg =>
    rw [hput, exceptBindError] at hr
    exact Except.noConfusion hr
  | ok pr =>
    obtain ⟨rawA, put⟩ := pr
    rw [hput, exceptBindOk] at hr
    cases hex : stageExtraction ctx derived (stageAv ctx att)
        (stageMime ctx att) att.filename att.data with
    | error msg =>
      rw [hex] at hr
      simp [Except.map, exceptBindError] at hr
    | ok exr =>
      obtain ⟨dA, ex⟩ := exr
      obtain ⟨e1, e2, e3, e4⟩ := ex
      rw [hex] at hr
      refine ⟨dA, (e1, e2, e3, e4), rfl, ?_⟩
      simp [Except.map, exceptBindOk] at hr
      obtain ⟨h1, h2, h3, h4, h5⟩ := hr
      subst h4
      rfl

/-- Extraction fields on a non-CLEAN attachment (stage.py line 93's
guard): no text, no OCR, derived store untouched. -/
theorem stageExtraction_nonclean (ctx : StageCtx) (derived : FsState)
    (av mime fn : String) (data : List Nat) (h : av ≠ "CLEAN") :
    stageExtraction ctx derived av mime fn data =
      .ok (derived, none, none, false, none) := by
  simp [stageExtraction, h]

/-- What a successful extraction implies about its fields: OCR can only
have been applied with a configured processor, a non-`text/*` mime and
a CLEAN verdict returning a result; and a CLEAN `text/*` attachment
always carries extracted text. -/
theorem stageExtraction_fields (ctx : StageCtx) (derived : FsState)
    (av mime fn : String) (data : List Nat)
    (out : FsState × Option String × Option String × Bool × Option Rat)
    (h : stageExtraction ctx derived av mime fn data = .ok out) :
    (out.2.2.2.1 = true →
      ctx.ocrProc ≠ none ∧ strStartsWith mime "text/" = false ∧
        av = "CLEAN") ∧
    (av = "CLEAN" → strStartsWith mime "text/" = true →
      out.2.1 ≠ none) := by
  obtain ⟨o1, o2, o3, o4, o5⟩ := out
  unfold stageExtraction at h
  split at h
  · rename_i hav
    split at h
    · rename_i e he
      cases hput : put_bytes derived "attachment_text" (strBytes e)
          (some ".txt") with
      | error msg =>
        rw [hput, exceptBindError] at h
        exact Except.noConfusion h
      | ok pr =>
        obtain ⟨dA, tput⟩ := pr
        rw [hput, exceptBindOk] at h
        simp at h
        obtain ⟨h1, h2, h3, h4, h5⟩ := h
        subst h2
        subst h4
        constructor
        · intro hf
          simp at hf
        · intro hcl htxt
          simp
    · rename_i he
      have htext : strStartsWith mime "text/" = false := by
        cases hsw : strStartsWith mime "text/"
        · rfl
        · rw [extract_text] at he
          simp [hsw] at he
      split at h
      · rename_i ocrf hocr
        split at h
        · rename_i ocr hres
          cases hput : put_bytes derived "attachment_text"
              (strBytes ocr.text) (some ".txt") with
          | error msg =>
            rw [hput, exceptBindError] at h
            exact Except.noConfusion h
          | ok pr =>
            obtain ⟨dA, tput⟩ := pr
            rw [hput, exceptBindOk] at h
            simp at h
            obtain ⟨h1, h2, h3, h4, h5⟩ := h
            subst h4
            constructor
            · intro hf
              exact ⟨by simp [hocr], htext, hav⟩
            · intro hcl htxt
              rw [htxt] at htext
              exact Bool.noConfusion htext
        · rename_i hres
          simp at h
          obtain ⟨h1, h2, h3, h4, h5⟩ := h
          subst h2
          subst h4
          constructor
          · intro hf
            simp at hf
          · intro hcl htxt
            rw [htxt] at htext
            exact Bool.noConfusion htext
      · rename_i hocr
        simp at h
        obtain ⟨h1, h2, h3, h4, h5⟩ := h
        subst h2
        subst h4
        constructor
        · intro hf
          simp at hf
        · intro hcl htxt
          rw [htxt] at htext
          exact Bool.noConfusion htext
  · rename_i hav
    simp at h
    obtain ⟨h1, h2, h3, h4, h5⟩ := h
    subst h2
    subst h4
    constructor
    · intro hf
      simp at hf
    · intro hcl htxt
      exact absurd hcl hav

/-- C7 (amended): for every successfully processed attachment, the
extracted-text fields are absent whenever `av_status ≠ CLEAN`; a CLEAN
`text/*` attachment always stores extracted text; and OCR is applied
only when a processor is configured, the verdict is CLEAN and the mime
type is not `text/*` — the stage itself never checks for `image/*`
(the shipped Tesseract processor returns `None` for non-image mimes). -/
theorem attachment_extraction_gating (ctx : StageCtx)
    (raw derived outDir : FsState) (message_id created_at_s : String)
    (att : AttachmentInput)
    (res : FsState × FsState × FsState × AttachmentArtifact ×
      ProcessedAttachment)
    (hr : processAttachment ctx raw derived outDir message_id created_at_s
      att = .ok res) :
    (res.2.2.2.1.av_status ≠ "CLEAN" →
      res.2.2.2.1.extracted_text_uri = none ∧
        res.2.2.2.1.extracted_text_sha256 = none ∧
        res.2.2.2.1.ocr_applied = false) ∧
    (res.2.2.2.1.ocr_applied = true →
      ctx.ocrProc ≠ none ∧
        strStartsWith res.2.2.2.1.mime_type "text/" = false ∧
        res.2.2.2.1.av_status = "CLEAN") ∧
    (res.2.2.2.1.av_status = "CLEAN" →
      strStartsWith res.2.2.2.1.mime_type "text/" = true →
      res.2.2.2.1.extracted_text_uri ≠ none) := by
  obtain ⟨derivedA, ex, hex, hart⟩ :=
    processAttachment_artifact ctx raw derived outDir message_id
      created_at_s att res hr
  obtain ⟨e1, e2, e3, e4⟩ := ex
  have hfields :=
    stageExtraction_fields ctx derived (stageAv ctx att) (stageMime ctx att)
      att.filename att.data (derivedA, (e1, e2, e3, e4)) hex
  rw [hart]
  refine ⟨?_, ?_, ?_⟩
  · intro hne
    have hne2 : stageAv ctx att ≠ "CLEAN" := hne
    rw [stageExtraction_nonclean ctx derived (stageAv ctx att)
      (stageMime ctx att) att.filename att.data hne2] at hex
    simp at hex
    obtain ⟨h1, h2, h3, h4, h5⟩ := hex
    subst h2
    subst h3
    subst h4
    exact ⟨rfl, rfl, rfl⟩
  · intro happ
    exact hfields.1 happ
  · intro hclean htext
    exact hfields.2 hclean htext

/-- Stage context for the C7 counterexample: an OCR processor that
answers for any mime type. -/
def c7Ctx : StageCtx :=
  { avScan := fun _ _ _ => "CLEAN"
    ocrProc := some (fun _ _ _ => some ⟨"scanned text", 1⟩)
    mimeGuess := fun _ => none
    isUuid := fun s => s = "123e4567-e89b-12d3-a456-426614174000"
    uuid5 := fun _ => "00000000-0000-0000-0000-000000000000"
    decodeUtf8Replace := fun _ => ""
    pathSuffix := fun _ => ".pdf"
    floatRepr := fun _ => "1.0"
    schema_id := "u:a:1"
    schema_version := "1" }

/-- A PDF attachment (not `text/*`, not `image/*`). -/
def c7Att : AttachmentInput :=
  ⟨"123e4567-e89b-12d3-a456-426614174000", "doc.pdf",
    "application/pdf", [1, 2]⟩

/-- The C7 counterexample run. -/
def c7Run :
    Except String
      (FsState × FsState × FsState × AttachmentArtifact ×
        ProcessedAttachment) :=
  processAttachment c7Ctx [] [] [] "m" "2024-01-01T00:00:00Z" c7Att

/-- Witness for `attachment_extraction_gating` at the concrete C7 run
(its hypothesis discharged by evaluation). -/
theorem attachment_extraction_gating_witness :
    ((c7Run.toOption.map fun r => r.2.2.2.1.av_status) = some "CLEAN" ∧
      (c7Run.toOption.map fun r => r.2.2.2.1.ocr_applied) = some true) ∧
    ((match c7Run with
      | .ok res =>
        (res.2.2.2.1.av_status ≠ "CLEAN" →
          res.2.2.2.1.extracted_text_uri = none ∧
            res.2.2.2.1.extracted_text_sha256 = none ∧
            res.2.2.2.1.ocr_applied = false) ∧
        (res.2.2.2.1.ocr_applied = true →
          c7Ctx.ocrProc ≠ none ∧
            strStartsWith res.2.2.2.1.mime_type "text/" = false ∧
            res.2.2.2.1.av_status = "CLEAN") ∧
        (res.2.2.2.1.av_status = "CLEAN" →
          strStartsWith res.2.2.2.1.mime_type "text/" = true →
          res.2.2.2.1.extracted_text_uri ≠ none)
      | .error _ => False)) := by
  refine ⟨⟨by decide, by decide⟩, ?_⟩
  have hsome : exceptIsOk c7Run = true := by decide
  cases hres : c7Run with
  | error msg =>
    rw [hres] at hsome
    exact Bool.noConfusion hsome
  | ok res =>
    exact attachment_extraction_gating c7Ctx [] [] [] "m"
      "2024-01-01T00:00:00Z" c7Att res hres

/-- Counterexample to C7 as stated: with a configured OCR processor and
a CLEAN `application/pdf` attachment, the stage applies OCR and stores
extracted text although the mime type does not match `image/*`. -/
theorem ocr_runs_without_image_mime :
    (c7Run.toOption.map fun r =>
      (r.2.2.2.1.ocr_applied, r.2.2.2.1.extracted_text_uri.isSome,
        r.2.2.2.1.mime_type)) = some (true, true, "application/pdf") ∧
    strStartsWith "application/pdf" "image/" = false := by
  refine ⟨by decide, by decide⟩

/-- C10: the stage hard-codes `doc_type_candidates` to the empty list
in every artifact it emits, and on attachments whose
`doc_type_candidates` are all empty the deterministic extractor never
produces an `ENT_DOCUMENT_TYPE` entity. -/
theorem doc_type_candidates_empty_and_unused (ctx : StageCtx)
    (raw derived outDir : FsState) (message_id created_at_s : String)
    (att : AttachmentInput)
    (res : FsState × FsState × FsState × AttachmentArtifact ×
      ProcessedAttachment)
    (hr : processAttachment ctx raw derived outDir message_id created_at_s
      att = .ok res)
    (iban_enabled : Bool) (iban_store_mode subject_c14n body_c14n : String)
    (atts : List ExtAttachment)
    (hatts : ∀ a ∈ atts, a.doc_type_candidates = []) :
    res.2.2.2.1.doc_type_candidates = [] ∧
    (extractor_extract iban_enabled iban_store_mode subject_c14n body_c14n
        atts).filter (fun ent => ent.entity_type = "ENT_DOCUMENT_TYPE") =
      [] := by
  obtain ⟨derived', ex, _, hart⟩ :=
    processAttachment_artifact ctx raw derived outDir message_id
      created_at_s att res hr
  refine ⟨by rw [hart]; rfl, ?_⟩
  rw [List.filter_eq_nil_iff]
  intro ent hmem
  rw [extractor_extract] at hmem
  simp only [List.mem_append] at hmem
  rcases hmem with ((((hp | hc) | hd) | hl) | hi) | hdoc
  · simp [mem_policyEntities hp]
  · simp [mem_claimEntities hc]
  · simp [mem_dateEntities hd]
  · simp [mem_locationEntities hl]
  · simp [mem_ibanEntities hi]
  · unfold docTypeEntities at hdoc
    by_cases hall : atts.all (fun a => a.av_status = "CLEAN") = true
    · rw [if_pos hall] at hdoc
      obtain ⟨a, hamem, hsome⟩ := List.mem_filterMap.mp hdoc
      rw [docEntityFor, hatts a hamem] at hsome
      cases hsome
    · rw [if_neg hall] at hdoc
      cases hdoc

/-- Witness for `doc_type_candidates_empty_and_unused` on the concrete
C1 replay context and a concrete attachment list. -/
theorem doc_type_candidates_empty_and_unused_witness :
    (match c7Run with
     | .ok res =>
       res.2.2.2.1.doc_type_candidates = [] ∧
       (extractor_extract true "HASH_ONLY" "betreff"
           "schaden in wien" [⟨"CLEAN", []⟩]).filter
         (fun ent => ent.entity_type = "ENT_DOCUMENT_TYPE") = []
     | .error _ => False) := by
  have hsome : exceptIsOk c7Run = true := by decide
  cases hres : c7Run with
  | error msg =>
    rw [hres] at hsome
    exact Bool.noConfusion hsome
  | ok res =>
    exact doc_type_candidates_empty_and_unused c7Ctx [] [] [] "m"
      "2024-01-01T00:00:00Z" c7Att res hres true "HASH_ONLY" "betreff"
      "schaden in wien" [⟨"CLEAN", []⟩] (by decide)

/-! ## Order and sorting infrastructure for Python's stable `list.sort` -/

/-- Characters with equal code points are equal. -/
theorem charToNat_inj (c d : Char) (h : c.toNat = d.toNat) : c = d := by
  cases c
  cases d
  simp only [Char.toNat] at h
  congr 1
  exact UInt32.ext h

/-- `lexLe` is total. -/
theorem lexLe_total : ∀ a b : List Char, lexLe a b = false → lexLe b a = true
  | [], _, h => by rw [lexLe] at h; cases h
  | _ :: _, [], _ => rfl
  | a :: as, b :: bs, h => by
    rw [lexLe] at h
    rw [lexLe]
    by_cases h1 : a.toNat < b.toNat
    · rw [if_pos h1] at h; cases h
    · rw [if_neg h1] at h
      by_cases h2 : b.toNat < a.toNat
      · rw [if_pos h2]
      · rw [if_neg h2] at h
        rw [if_neg h2, if_neg h1]
        exact lexLe_total as bs h

/-- `lexLe` is transitive. -/
theorem lexLe_trans : ∀ a b c : List Char, lexLe a b = true →
    lexLe b c = true → lexLe a c = true
  | [], _, _, _, _ => rfl
  | _ :: _, [], _, hab, _ => by rw [lexLe] at hab; cases hab
  | _ :: _, _ :: _, [], _, hbc => by rw [lexLe] at hbc; cases hbc
  | a :: as, b :: bs, c :: cs, hab, hbc => by
    rw [lexLe] at hab hbc
    rw [lexLe]
    by_cases h1 : a.toNat < b.toNat
    · by_cases h2 : b.toNat < c.toNat
      · rw [if_pos (show a.toNat < c.toNat by omega)]
      · rw [if_neg h2] at hbc
        by_cases h3 : c.toNat < b.toNat
        · rw [if_pos h3] at hbc; cases hbc
        · rw [if_pos (show a.toNat < c.toNat by omega)]
    · rw [if_neg h1] at hab
      by_cases h4 : b.toNat < a.toNat
      · rw [if_pos h4] at hab; cases hab
      · rw [if_neg h4] at hab
        by_cases h2 : b.toNat < c.toNat
        · rw [if_pos (show a.toNat < c.toNat by omega)]
        · rw [if_neg h2] at hbc
          by_cases h3 : c.toNat < b.toNat
          · rw [if_pos h3] at hbc; cases hbc
          · rw [if_neg h3] at hbc
            rw [if_neg (show ¬ a.toNat < c.toNat by omega),
              if_neg (show ¬ c.toNat < a.toNat by omega)]
            exact lexLe_trans as bs cs hab hbc

/-- `lexLe` is antisymmetric. -/
theorem lexLe_antisymm : ∀ a b : List Char, lexLe a b = true →
    lexLe b a = true → a = b
  | [], [], _, _ => rfl
  | [], _ :: _, _, hba => by rw [lexLe] at hba; cases hba
  | _ :: _, [], hab, _ => by rw [lexLe] at hab; cases hab
  | a :: as, b :: bs, hab, hba => by
    rw [lexLe] at hab hba
    by_cases h1 : a.toNat < b.toNat
    · rw [if_neg (show ¬ b.toNat < a.toNat by omega), if_pos h1] at hba
      cases hba
    · by_cases h2 : b.toNat < a.toNat
      · rw [if_neg h1, if_pos h2] at hab
        cases hab
      · rw [if_neg h1, if_neg h2] at hab
        rw [if_neg h2, if_neg h1] at hba
        rw [charToNat_inj a b (by omega), lexLe_antisymm as bs hab hba]

/-- `strLe` is total. -/
theorem strLe_total (a b : String) (h : strLe a b = false) :
    strLe b a = true :=
  lexLe_total a.data b.data h

/-- `strLe` is transitive. -/
theorem strLe_trans (a b c : String) (h1 : strLe a b = true)
    (h2 : strLe b c = true) : strLe a c = true :=
  lexLe_trans a.data b.data c.data h1 h2

/-- `strLe` is antisymmetric. -/
theorem strLe_antisymm (a b : String) (h1 : strLe a b = true)
    (h2 : strLe b a = true) : a = b := by
  cases a with
  | mk da =>
    cases b with
    | mk db =>
      rw [lexLe_antisymm da db h1 h2]

/-- Stable insertion step of Python's `list.sort`: the new element goes
after every element whose key is not greater. -/
def insertSorted {α : Type} (le : α → α → Bool) (x : α) : List α → List α
  | [] => [x]
  | y :: ys => if le y x then y :: insertSorted le x ys else x :: y :: ys

/-- Python's stable `list.sort` by a boolean key order (`le a b` = key
of `a` ≤ key of `b`). -/
def pySort {α : Type} (le : α → α → Bool) (l : List α) : List α :=
  l.foldl (fun acc x => insertSorted le x acc) []

/-- Membership through one insertion. -/
theorem mem_insertSorted {α : Type} (le : α → α → Bool) (x a : α) :
    ∀ l : List α, a ∈ insertSorted le x l ↔ a = x ∨ a ∈ l
  | [] => by simp [insertSorted]
  | y :: ys => by
    rw [insertSorted]
    by_cases hc : le y x = true
    · rw [if_pos hc]
      simp only [List.mem_cons, mem_insertSorted le x a ys]
      tauto
    · rw [if_neg hc]
      simp only [List.mem_cons]

/-- Insertion preserves sortedness for a total transitive key order. -/
theorem pairwise_insertSorted {α : Type} (le : α → α → Bool)
    (total : ∀ a b, le a b = false → le b a = true)
    (trans : ∀ a b c, le a b = true → le b c = true → le a c = true)
    (x : α) : ∀ l : List α,
    List.Pairwise (fun a b => le a b = true) l →
    List.Pairwise (fun a b => le a b = true) (insertSorted le x l)
  | [], _ => by simp [insertSorted]
  | y :: ys, h => by
    rw [insertSorted]
    obtain ⟨hy, hys⟩ := List.pairwise_cons.mp h
    by_cases hc : le y x = true
    · rw [if_pos hc]
      refine List.pairwise_cons.mpr
        ⟨?_, pairwise_insertSorted le total trans x ys hys⟩
      intro z hz
      rcases (mem_insertSorted le x z ys).mp hz with rfl | hz2
      · exact hc
      · exact hy z hz2
    · rw [if_neg hc]
      have hxy : le x y = true := total y x (by
        cases hxx : le y x
        · rfl
        · exact absurd hxx hc)
      refine List.pairwise_cons.mpr ⟨?_, h⟩
      intro z hz
      rcases List.mem_cons.mp hz with rfl | hz2
      · exact hxy
      · exact trans x y z hxy (hy z hz2)

/-- Membership through the sort's fold. -/
theorem mem_pySortAux {α : Type} (le : α → α → Bool) (a : α) :
    ∀ (l acc : List α),
    (a ∈ l.foldl (fun acc x => insertSorted le x acc) acc ↔
      a ∈ acc ∨ a ∈ l)
  | [], acc => by simp
  | x :: xs, acc => by
    rw [List.foldl]
    rw [mem_pySortAux le a xs (insertSorted le x acc)]
    rw [mem_insertSorted le x a acc]
    simp only [List.mem_cons]
    tauto

/-- `pySort` keeps exactly the original elements. -/
theorem mem_pySort {α : Type} (le : α → α → Bool) (a : α) (l : List α) :
    a ∈ pySort le l ↔ a ∈ l := by
  rw [pySort, mem_pySortAux le a l []]
  simp

/-- The sort's fold preserves sortedness. -/
theorem pairwise_pySortAux {α : Type} (le : α → α → Bool)
    (total : ∀ a b, le a b = false → le b a = true)
    (trans : ∀ a b c, le a b = true → le b c = true → le a c = true) :
    ∀ (l acc : List α), List.Pairwise (fun a b => le a b = true) acc →
    List.Pairwise (fun a b => le a b = true)
      (l.foldl (fun acc x => insertSorted le x acc) acc)
  | [], _, h => h
  | x :: xs, acc, h =>
    pairwise_pySortAux le total trans xs (insertSorted le x acc)
      (pairwise_insertSorted le total trans x acc h)

/-- `pySort` sorts, for a total transitive key order. -/
theorem pairwise_pySort {α : Type} (le : α → α → Bool)
    (total : ∀ a b, le a b = false → le b a = true)
    (trans : ∀ a b c, le a b = true → le b c = true → le a c = true)
    (l : List α) :
    List.Pairwise (fun a b => le a b = true) (pySort le l) :=
  pairwise_pySortAux le total trans l [] List.Pairwise.nil

/-- `find?` splits its list at the first hit. -/
theorem find_decomp {α : Type} (p : α → Bool) :
    ∀ (l : List α) (x : α), l.find? p = some x →
    ∃ l1 l2, l = l1 ++ x :: l2 ∧ (∀ y ∈ l1, p y = false) ∧ p x = true
  | [], x, h => by rw [List.find?] at h; cases h
  | a :: as, x, h => by
    rw [List.find?] at h
    cases hpa : p a with
    | true =>
      rw [hpa] at h
      simp only [Option.some.injEq] at h
      subst h
      exact ⟨[], as, rfl, by simp, hpa⟩
    | false =>
      rw [hpa] at h
      obtain ⟨l1, l2, heq, hl1, hx⟩ := find_decomp p as x h
      refine ⟨a :: l1, l2, by rw [heq]; rfl, ?_, hx⟩
      intro y hy
      rcases List.mem_cons.mp hy with rfl | hy2
      · exact hpa
      · exact hl1 y hy2

/-! ## Identity resolution
(`IdentityResolver.resolve`, `src/ieim/identity/resolver.py`, with the
identifier scanners of `src/ieim/identity/extract.py`).

`Decimal` arithmetic is exact on these values and is embedded as `Rat`;
`quantize(Decimal("0.01"), ROUND_HALF_UP)` on the clipped non-negative
score is `⌊100·x + 1/2⌋ / 100`.  A candidate's score passes through
`float` and back via `Decimal(str(score))`; for scores quantized to two
decimals in `[0, 1]` Python's shortest float repr makes that round trip
the identity, so one `Rat` value models the whole journey. -/

/-- `IdentifierHit` (`identity/extract.py`); `stop` embeds the
source's `end` field. -/
structure IdentifierHit where
  kind : String
  value : String
  source : String
  start : Nat
  stop : Nat
  snippet : String
deriving DecidableEq

/-- `\bpolizzennr\s+(?P<num>\d{2}-\d{7})\b` at one position: the full
match's span and text, and the `num` group.  `\s+` borders `\d`, so
the greedy whitespace run never backtracks. -/
def polizzenAt (prev : Option Char) (cs : List Char) (i : Nat) :
    Option (Nat × Nat × String × String) :=
  if ¬ bBefore prev then none
  else
    match matchLit ['p', 'o', 'l', 'i', 'z', 'z', 'e', 'n', 'n', 'r'] cs with
    | none => none
    | some r1 =>
      let sp := takeClassRun pyIsSpace r1
      if sp.1.isEmpty then none
      else
        match takeDigits 2 sp.2 with
        | none => none
        | some (d1, r2) =>
          match r2 with
          | '-' :: r3 =>
            (match takeDigits 7 r3 with
             | none => none
             | some (d2, r4) =>
               if bAfterChar (d2.getLastD '0') r4 then
                 some (i, i + 10 + sp.1.length + 10,
                   ⟨['p', 'o', 'l', 'i', 'z', 'z', 'e', 'n', 'n', 'r'] ++
                     sp.1 ++ d1 ++ '-' :: d2⟩,
                   ⟨d1 ++ '-' :: d2⟩)
               else none)
          | _ => none

/-- `find_claim_number` (`identity/extract.py` lines 24-49). -/
def find_claim_number (subject_c14n body_c14n : String) :
    Option IdentifierHit :=
  match reSearch claimAt subject_c14n with
  | some (s, e, raw) =>
    some ⟨"CLAIM_NUMBER", pythonUpper raw, "SUBJECT_C14N", s, e, raw⟩
  | none =>
    match reSearch claimAt body_c14n with
    | some (s, e, raw) =>
      some ⟨"CLAIM_NUMBER", pythonUpper raw, "BODY_C14N", s, e, raw⟩
    | none => none

/-- `find_policy_number` (`identity/extract.py` lines 52-101): a
subject match is re-anchored in the body when the number also occurs
there; then the `polizzennr`-prefixed body rule; then a plain body
match. -/
def find_policy_number (subject_c14n body_c14n : String) :
    Option IdentifierHit :=
  match reSearch policyAt subject_c14n with
  | some (s, e, num) =>
    (match findSub body_c14n.data num.data with
     | some idx =>
       some ⟨"POLICY_NUMBER", num, "BODY_C14N", idx, idx + num.length, num⟩
     | none => some ⟨"POLICY_NUMBER", num, "SUBJECT_C14N", s, e, num⟩)
  | none =>
    match reSearch polizzenAt body_c14n with
    | some (s, e, full, num) =>
      some ⟨"POLICY_NUMBER", num, "BODY_C14N", s, e, full⟩
    | none =>
      match reSearch policyAt body_c14n with
      | some (s, e, num) =>
        some ⟨"POLICY_NUMBER", num, "BODY_C14N", s, e, num⟩
      | none => none

/-- `SignalSpec` (`identity/config.py`). -/
structure SignalSpec where
  weight : Rat
  strength : Rat
deriving DecidableEq

/-- `IdentityThresholds` (`identity/config.py`). -/
structure IdentityThresholds where
  confirmed_min_score : Rat
  confirmed_min_margin : Rat
  probable_min_score : Rat
  probable_min_margin : Rat
deriving DecidableEq

/-- `ScoreTransform` (`identity/config.py`). -/
structure ScoreTransform where
  intercept : Rat
  slope : Rat
deriving DecidableEq

/-- The `IdentityConfig` fields `resolve` reads. -/
structure IdentityConfig where
  top_k : Nat
  thresholds : IdentityThresholds
  signal_specs : String → Option SignalSpec
  score_transform : ScoreTransform

/-- The `IdentityResolver` dataclass: configuration plus the three
adapters (claim number → claim record id, policy number → policy
record id, sender email → linked policy numbers). -/
structure IdentityResolver where
  config : IdentityConfig
  claims_lookup : String → Option String
  policy_lookup : String → Option String
  crm_policy_numbers : String → List String

/-- `Decimal.quantize(Decimal("0.01"), ROUND_HALF_UP)` on a
non-negative value. -/
def quantize2 (x : Rat) : Rat :=
  ((Rat.floor (100 * x + 1 / 2) : Int) : Rat) / 100

/-- `_score_from_signals` (`resolver.py` lines 49-58). -/
def score_from_signals (config : IdentityConfig)
    (specs : List SignalSpec) : Rat :=
  let raw := specs.foldl (fun acc s => acc + s.weight * s.strength) 0
  let score := config.score_transform.intercept +
    config.score_transform.slope * raw
  let score := if score < 0 then 0 else score
  let score := if score > 1 then 1 else score
  quantize2 score

/-- The resolver's `_evidence_span` (`resolver.py` lines 39-46). -/
def identity_evidence_span (hit : IdentifierHit) : EvidenceSpan :=
  ⟨hit.source, hit.start, hit.stop, hit.snippet,
    sha256_prefixed (strBytes hit.snippet)⟩

/-- One signal payload (`add_signal`, `resolver.py` lines 102-120);
`value` is present only when given. -/
structure Signal where
  name : String
  strength : Rat
  weight : Rat
  value : Option String
deriving DecidableEq

/-- `add_signal`: the spec lookup (an error on a missing spec), the
spec for scoring and the payload for the candidate. -/
def addSignal (config : IdentityConfig) (name : String)
    (value : Option String) : Except String (SignalSpec × Signal) :=
  match config.signal_specs name with
  | none => .error ("missing signal spec for " ++ name)
  | some spec => .ok (spec, ⟨name, spec.strength, spec.weight, value⟩)

/-- One candidate dict with its private `_has_hard`/`_has_medium`
marks. -/
structure Candidate where
  entity_type : String
  entity_id : String
  score : Rat
  signals : List Signal
  evidence : List EvidenceSpan
  has_hard : Bool
  has_medium : Bool
deriving DecidableEq

/-- The claim-hit candidate (`resolver.py` lines 122-144). -/
def claimCandidates (r : IdentityResolver)
    (claim_hit : Option IdentifierHit) : Except String (List Candidate) :=
  match claim_hit with
  | none => .ok []
  | some hit =>
    match r.claims_lookup hit.value with
    | none => .ok []
    | some claim_id => do
      let (spec, sig) ←
        addSignal r.config "SIG_CLAIM_NUMBER_LOOKUP_MATCH" (some claim_id)
      .ok [⟨"CLAIM", claim_id, score_from_signals r.config [spec], [sig],
        [identity_evidence_span hit], true, false⟩]

/-- The policy-hit candidate with the optional sender-email signal
(`resolver.py` lines 146-182). -/
def policyCandidates (r : IdentityResolver) (from_email : String)
    (policy_hit : Option IdentifierHit) : Except String (List Candidate) :=
  match policy_hit with
  | none => .ok []
  | some hit =>
    match r.policy_lookup hit.value with
    | none => .ok []
    | some policy_id => do
      let (spec1, sig1) ←
        addSignal r.config "SIG_POLICY_NUMBER_LOOKUP_MATCH" (some hit.value)
      let sender_email_signal :=
        if from_email = "" then false
        else (r.crm_policy_numbers from_email).contains hit.value
      if sender_email_signal then do
        let (spec2, sig2) ←
          addSignal r.config "SIG_SENDER_EMAIL_MATCH" (some from_email)
        .ok [⟨"POLICY", policy_id,
          score_from_signals r.config [spec1, spec2], [sig1, sig2],
          [identity_evidence_span hit], true, true⟩]
      else
        .ok [⟨"POLICY", policy_id, score_from_signals r.config [spec1],
          [sig1], [identity_evidence_span hit], true, false⟩]

/-- The sort key `(-score, entity_type, entity_id)` as a boolean order
(`resolver.py` line 184). -/
def candLe (a b : Candidate) : Bool :=
  if a.score ≠ b.score then decide (b.score < a.score)
  else if a.entity_type ≠ b.entity_type then
    strLe a.entity_type b.entity_type
  else strLe a.entity_id b.entity_id

/-- `second_score`: the next candidate's score, 0 when alone. -/
def secondScore : List Candidate → Rat
  | [] => 0
  | c :: _ => c.score

/-- A candidate as it appears in `top_k`/`selected_candidate`: the
underscore keys dropped, a `rank` added. -/
structure RankedCandidate where
  rank : Nat
  entity_type : String
  entity_id : String
  score : Rat
  signals : List Signal
  evidence : List EvidenceSpan
deriving DecidableEq

/-- Dropping the underscore keys and attaching a rank. -/
def stripRank (rank : Nat) (c : Candidate) : RankedCandidate :=
  ⟨rank, c.entity_type, c.entity_id, c.score, c.signals, c.evidence⟩

/-- `enumerate(candidates[:top_k])` with ranks `idx + 1`. -/
def rankFrom (n : Nat) : List Candidate → List RankedCandidate
  | [] => []
  | c :: cs => stripRank n c :: rankFrom (n + 1) cs

/-- `_is_high_risk_unresolved` (`resolver.py` lines 61-65). -/
def is_high_risk_unresolved (subject_c14n body_c14n : String) : Bool :=
  let text := subject_c14n ++ "\n" ++ body_c14n
  strHasSub text "ombudsmann" || strHasSub text "anwalt" ||
    strHasSub text "frist"

/-- The status/selected/top_k triple `resolve` computes. -/
structure IdentityOutcome where
  status : String
  selected_candidate : Option RankedCandidate
  top_k : List RankedCandidate
deriving DecidableEq

/-- The status decision block of `resolve` (`resolver.py` lines
193-234). -/
def identityDecision (t : IdentityThresholds) (top_k_n : Nat)
    (high_risk : Bool) : List Candidate → IdentityOutcome
  | [] =>
    ⟨if high_risk then "IDENTITY_NEEDS_REVIEW" else "IDENTITY_NO_CANDIDATE",
      none, []⟩
  | top :: rest =>
    if top.has_hard = true ∧ t.confirmed_min_score ≤ top.score ∧
        t.confirmed_min_margin ≤ top.score - secondScore rest then
      ⟨"IDENTITY_CONFIRMED", some (stripRank 1 top),
        rankFrom 1 ((top :: rest).take top_k_n)⟩
    else if top.has_medium = true ∧ t.probable_min_score ≤ top.score ∧
        t.probable_min_margin ≤ top.score - secondScore rest then
      ⟨"IDENTITY_PROBABLE", some (stripRank 1 top),
        rankFrom 1 ((top :: rest).take top_k_n)⟩
    else
      ⟨"IDENTITY_NEEDS_REVIEW", none,
        rankFrom 1 ((top :: rest).take top_k_n)⟩

/-- The attachment-text fallback loop over `find_claim_number` and
`find_policy_number` (`resolver.py` lines 93-98). -/
def attachmentHits : List String →
    Option IdentifierHit × Option IdentifierHit
  | [] => (none, none)
  | t :: rest =>
    let ch := find_claim_number "" t
    let ph := find_policy_number "" t
    if ch.isSome || ph.isSome then (ch, ph) else attachmentHits rest

/-- The claim/policy hit pair `resolve` settles on (`resolver.py`
lines 90-98). -/
def identityHits (subject_c14n body_c14n : String)
    (attachment_texts_c14n : List String) :
    Option IdentifierHit × Option IdentifierHit :=
  let claim_hit := find_claim_number subject_c14n body_c14n
  let policy_hit := find_policy_number subject_c14n body_c14n
  if claim_hit = none ∧ policy_hit = none ∧ attachment_texts_c14n ≠ [] then
    attachmentHits attachment_texts_c14n
  else (claim_hit, policy_hit)

/-- The sorted candidate list `resolve` builds (`resolver.py` lines
100-184). -/
def identityCandidates (r : IdentityResolver)
    (subject_c14n body_c14n from_email : String)
    (attachment_texts_c14n : List String) :
    Except String (List Candidate) := do
  let cc ← claimCandidates r
    (identityHits subject_c14n body_c14n attachment_texts_c14n).1
  let pc ← policyCandidates r from_email
    (identityHits subject_c14n body_c14n attachment_texts_c14n).2
  .ok (pySort candLe (cc ++ pc))

/-- The `resolve` core: sorted candidates, then status, selected
candidate and `top_k` (`resolver.py` lines 90-234). -/
def resolveIdentity (r : IdentityResolver)
    (subject_c14n body_c14n from_email : String)
    (attachment_texts_c14n : List String) :
    Except String IdentityOutcome := do
  let cands ← identityCandidates r subject_c14n body_c14n from_email
    attachment_texts_c14n
  .ok (identityDecision r.config.thresholds r.config.top_k
    (is_high_risk_unresolved subject_c14n body_c14n) cands)

/-- `candLe` is total. -/
theorem candLe_total (a b : Candidate) (h : candLe a b = false) :
    candLe b a = true := by
  unfold candLe at h ⊢
  by_cases h1 : a.score = b.score
  · rw [if_neg (by simp [h1])] at h
    rw [if_neg (by simp [h1])]
    by_cases h2 : a.entity_type = b.entity_type
    · rw [if_neg (by simp [h2])] at h
      rw [if_neg (by simp [h2])]
      exact strLe_total _ _ h
    · rw [if_pos h2] at h
      rw [if_pos (fun hh => h2 hh.symm)]
      exact strLe_total _ _ h
  · rw [if_pos h1] at h
    rw [if_pos (fun hh => h1 hh.symm)]
    simp only [decide_eq_false_iff_not] at h
    simp only [decide_eq_true_eq]
    rcases lt_or_gt_of_ne h1 with hlt | hgt
    · exact hlt
    · exact absurd hgt h

/-- `candLe` is transitive. -/
theorem candLe_trans (a b c : Candidate) (h1 : candLe a b = true)
    (h2 : candLe b c = true) : candLe a c = true := by
  unfold candLe at h1 h2 ⊢
  by_cases e1 : a.score = b.score
  · rw [if_neg (by simp [e1])] at h1
    by_cases e2 : b.score = c.score
    · rw [if_neg (by simp [e2])] at h2
      rw [if_neg (show ¬ a.score ≠ c.score by simp [e1, e2])]
      by_cases t1 : a.entity_type = b.entity_type
      · rw [if_neg (by simp [t1])] at h1
        by_cases t2 : b.entity_type = c.entity_type
        · rw [if_neg (by simp [t2])] at h2
          rw [if_neg (show ¬ a.entity_type ≠ c.entity_type by
            simp [t1, t2])]
          exact strLe_trans _ _ _ h1 h2
        · rw [if_pos t2] at h2
          rw [if_pos (show a.entity_type ≠ c.entity_type by
            rw [t1]; exact t2)]
          rw [t1]
          exact h2
      · rw [if_pos t1] at h1
        by_cases t2 : b.entity_type = c.entity_type
        · rw [if_neg (by simp [t2])] at h2
          rw [if_pos (show a.entity_type ≠ c.entity_type by
            rw [← t2]; exact t1)]
          rw [← t2]
          exact h1
        · rw [if_pos t2] at h2
          by_cases t3 : a.entity_type = c.entity_type
          · exact absurd
              (strLe_antisymm _ _ h1 (by rw [t3]; exact h2)) t1
          · rw [if_pos t3]
            exact strLe_trans _ _ _ h1 h2
    · rw [if_pos e2] at h2
      rw [if_pos (show a.score ≠ c.score by rw [e1]; exact e2)]
      simp only [decide_eq_true_eq] at h2 ⊢
      rw [e1]
      exact h2
  · rw [if_pos e1] at h1
    by_cases e2 : b.score = c.score
    · rw [if_neg (by simp [e2])] at h2
      rw [if_pos (show a.score ≠ c.score by rw [← e2]; exact e1)]
      simp only [decide_eq_true_eq] at h1 ⊢
      rw [← e2]
      exact h1
    · rw [if_pos e2] at h2
      simp only [decide_eq_true_eq] at h1 h2
      have hca : c.score < a.score := lt_trans h2 h1
      rw [if_pos (ne_of_gt hca)]
      simp only [decide_eq_true_eq]
      exact hca

/-- A successful candidate build is `pySort candLe` of the raw
claim/policy pieces. -/
theorem identityCandidates_ok (r : IdentityResolver)
    (subject_c14n body_c14n from_email : String)
    (attachment_texts_c14n : List String) (l : List Candidate)
    (h : identityCandidates r subject_c14n body_c14n from_email
      attachment_texts_c14n = .ok l) :
    ∃ base, l = pySort candLe base := by
  unfold identityCandidates at h
  cases hcc : claimCandidates r
      (identityHits subject_c14n body_c14n attachment_texts_c14n).1 with
  | error msg =>
    rw [hcc, exceptBindError] at h
    exact Except.noConfusion h
  | ok cc =>
    rw [hcc, exceptBindOk] at h
    cases hpc : policyCandidates r from_email
        (identityHits subject_c14n body_c14n attachment_texts_c14n).2 with
    | error msg =>
      rw [hpc, exceptBindError] at h
      exact Except.noConfusion h
    | ok pc =>
      rw [hpc, exceptBindOk] at h
      simp only [Except.ok.injEq] at h
      exact ⟨cc ++ pc, h.symm⟩

/-- C4: for every run of `IdentityResolver.resolve` whose candidate
list is non-empty, the candidates stand sorted by descending score,
then entity type, then entity id; the status is `IDENTITY_CONFIRMED`
iff the top candidate carries a hard signal, its score reaches
`confirmed_min_score` and the margin over the second score (0 when
alone) reaches `confirmed_min_margin`; otherwise `IDENTITY_PROBABLE`
iff the top candidate carries a medium signal and clears the probable
thresholds; otherwise `IDENTITY_NEEDS_REVIEW` with a null
`selected_candidate`; and `top_k` ranks the first `top_k` candidates
1, 2, …. -/
theorem identity_status_thresholds (r : IdentityResolver)
    (subject_c14n body_c14n from_email : String)
    (attachment_texts_c14n : List String) (outcome : IdentityOutcome)
    (top : Candidate) (rest : List Candidate)
    (hr : resolveIdentity r subject_c14n body_c14n from_email
      attachment_texts_c14n = .ok outcome)
    (hcands : identityCandidates r subject_c14n body_c14n from_email
      attachment_texts_c14n = .ok (top :: rest)) :
    List.Pairwise (fun a b => candLe a b = true) (top :: rest) ∧
    (outcome.status = "IDENTITY_CONFIRMED" ↔
      (top.has_hard = true ∧
        r.config.thresholds.confirmed_min_score ≤ top.score ∧
        r.config.thresholds.confirmed_min_margin ≤
          top.score - secondScore rest)) ∧
    (outcome.status = "IDENTITY_PROBABLE" ↔
      (¬ (top.has_hard = true ∧
          r.config.thresholds.confirmed_min_score ≤ top.score ∧
          r.config.thresholds.confirmed_min_margin ≤
            top.score - secondScore rest) ∧
        (top.has_medium = true ∧
          r.config.thresholds.probable_min_score ≤ top.score ∧
          r.config.thresholds.probable_min_margin ≤
            top.score - secondScore rest))) ∧
    (outcome.status = "IDENTITY_NEEDS_REVIEW" →
      outcome.selected_candidate = none) ∧
    (outcome.status ≠ "IDENTITY_NEEDS_REVIEW" →
      outcome.selected_candidate = some (stripRank 1 top)) ∧
    outcome.top_k = rankFrom 1 ((top :: rest).take r.config.top_k) := by
  obtain ⟨base, hbase⟩ :=
    identityCandidates_ok r subject_c14n body_c14n from_email
      attachment_texts_c14n (top :: rest) hcands
  have hsorted : List.Pairwise (fun a b => candLe a b = true)
      (top :: rest) := by
    rw [hbase]
    exact pairwise_pySort candLe candLe_total candLe_trans base
  unfold resolveIdentity at hr
  rw [hcands, exceptBindOk] at hr
  simp only [Except.ok.injEq] at hr
  rw [identityDecision] at hr
  by_cases hc1 : top.has_hard = true ∧
      r.config.thresholds.confirmed_min_score ≤ top.score ∧
      r.config.thresholds.confirmed_min_margin ≤
        top.score - secondScore rest
  · rw [if_pos hc1] at hr
    subst hr
    exact ⟨hsorted, Iff.intro (fun _ => hc1) (fun _ => rfl),
      Iff.intro
        (fun h => absurd (show ("IDENTITY_CONFIRMED" : String) =
          "IDENTITY_PROBABLE" from h) (by decide))
        (fun h => absurd hc1 h.1),
      fun h => absurd (show ("IDENTITY_CONFIRMED" : String) =
        "IDENTITY_NEEDS_REVIEW" from h) (by decide),
      fun _ => rfl, rfl⟩
  · rw [if_neg hc1] at hr
    by_cases hc2 : top.has_medium = true ∧
        r.config.thresholds.probable_min_score ≤ top.score ∧
        r.config.thresholds.probable_min_margin ≤
          top.score - secondScore rest
    · rw [if_pos hc2] at hr
      subst hr
      exact ⟨hsorted,
        Iff.intro (fun h => absurd (show ("IDENTITY_PROBABLE" : String) =
          "IDENTITY_CONFIRMED" from h) (by decide)) (fun h => absurd h hc1),
        Iff.intro (fun _ => ⟨hc1, hc2⟩) (fun _ => rfl),
        fun h => absurd (show ("IDENTITY_PROBABLE" : String) =
          "IDENTITY_NEEDS_REVIEW" from h) (by decide),
        fun _ => rfl, rfl⟩
    · rw [if_neg hc2] at hr
      subst hr
      exact ⟨hsorted,
        Iff.intro (fun h => absurd (show ("IDENTITY_NEEDS_REVIEW" : String) =
          "IDENTITY_CONFIRMED" from h) (by decide)) (fun h => absurd h hc1),
        Iff.intro (fun h => absurd (show ("IDENTITY_NEEDS_REVIEW" : String) =
          "IDENTITY_PROBABLE" from h) (by decide)) (fun h => absurd h.2 hc2),
        fun _ => rfl, fun h => absurd rfl h, rfl⟩

deriving instance DecidableEq for Except

/-- The near-tie configuration of the spec's scenario: signal weights
giving scores 0.91 and 0.86, `confirmed_min_margin` 0.20. -/
def c4Config : IdentityConfig :=
  { top_k := 3
    thresholds := ⟨85/100, 20/100, 80/100, 10/100⟩
    signal_specs := fun n =>
      if n = "SIG_CLAIM_NUMBER_LOOKUP_MATCH" then some ⟨91/100, 1⟩
      else if n = "SIG_POLICY_NUMBER_LOOKUP_MATCH" then some ⟨86/100, 1⟩
      else if n = "SIG_SENDER_EMAIL_MATCH" then some ⟨10/100, 1⟩
      else none
    score_transform := ⟨0, 1⟩ }

/-- The resolver of the near-tie scenario: one claim record and one
policy record, no CRM-linked sender. -/
def c4Resolver : IdentityResolver :=
  { config := c4Config
    claims_lookup := fun n =>
      if n = "CLM-2024-0001" then some "CL-77" else none
    policy_lookup := fun n =>
      if n = "12-3456789" then some "PO-55" else none
    crm_policy_numbers := fun _ => [] }

/-- The claim candidate the scenario produces (score 0.91). -/
def c4Top : Candidate :=
  ⟨"CLAIM", "CL-77", 91/100,
    [⟨"SIG_CLAIM_NUMBER_LOOKUP_MATCH", 1, 91/100, some "CL-77"⟩],
    [⟨"SUBJECT_C14N", 0, 13, "clm-2024-0001",
      "sha256:6f604221bc3d61ac43768279af361615a7b58131cf1963fff0e752a63852173f"⟩],
    true, false⟩

/-- The policy candidate the scenario produces (score 0.86). -/
def c4Second : Candidate :=
  ⟨"POLICY", "PO-55", 86/100,
    [⟨"SIG_POLICY_NUMBER_LOOKUP_MATCH", 1, 86/100, some "12-3456789"⟩],
    [⟨"BODY_C14N", 0, 21, "polizzennr 12-3456789",
      "sha256:1af69714312810f6680245c344087f4eedc1ca13269e33ecfef8e23c9068d47e"⟩],
    true, false⟩

/-- The scenario's outcome: needs review, nothing selected, ranks 1
and 2. -/
def c4Outcome : IdentityOutcome :=
  ⟨"IDENTITY_NEEDS_REVIEW", none, [stripRank 1 c4Top, stripRank 2 c4Second]⟩

/-- Witness for `identity_status_thresholds` at the near-tie scenario:
scores 0.91 and 0.86 under `confirmed_min_margin` 0.20 give
`IDENTITY_NEEDS_REVIEW`, a null selected candidate and ranks `[1, 2]`,
and the theorem's hypotheses hold at this input by evaluation. -/
theorem identity_status_thresholds_witness :
    (resolveIdentity c4Resolver "clm-2024-0001" "polizzennr 12-3456789" ""
        [] = .ok c4Outcome ∧
      identityCandidates c4Resolver "clm-2024-0001" "polizzennr 12-3456789"
        "" [] = .ok (c4Top :: [c4Second]) ∧
      c4Outcome.status = "IDENTITY_NEEDS_REVIEW" ∧
      c4Outcome.selected_candidate = none ∧
      c4Outcome.top_k.map (fun c => c.rank) = [1, 2] ∧
      c4Top.score = 91/100 ∧ c4Second.score = 86/100 ∧
      c4Config.thresholds.confirmed_min_margin = 20/100) ∧
    (List.Pairwise (fun a b => candLe a b = true) (c4Top :: [c4Second]) ∧
      (c4Outcome.status = "IDENTITY_CONFIRMED" ↔
        (c4Top.has_hard = true ∧
          c4Resolver.config.thresholds.confirmed_min_score ≤ c4Top.score ∧
          c4Resolver.config.thresholds.confirmed_min_margin ≤
            c4Top.score - secondScore [c4Second])) ∧
      (c4Outcome.status = "IDENTITY_PROBABLE" ↔
        (¬ (c4Top.has_hard = true ∧
            c4Resolver.config.thresholds.confirmed_min_score ≤
              c4Top.score ∧
            c4Resolver.config.thresholds.confirmed_min_margin ≤
              c4Top.score - secondScore [c4Second]) ∧
          (c4Top.has_medium = true ∧
            c4Resolver.config.thresholds.probable_min_score ≤
              c4Top.score ∧
            c4Resolver.config.thresholds.probable_min_margin ≤
              c4Top.score - secondScore [c4Second]))) ∧
      (c4Outcome.status = "IDENTITY_NEEDS_REVIEW" →
        c4Outcome.selected_candidate = none) ∧
      (c4Outcome.status ≠ "IDENTITY_NEEDS_REVIEW" →
        c4Outcome.selected_candidate = some (stripRank 1 c4Top)) ∧
      c4Outcome.top_k =
        rankFrom 1 ((c4Top :: [c4Second]).take c4Resolver.config.top_k)) :=
  ⟨by with_unfolding_all decide,
    identity_status_thresholds c4Resolver "clm-2024-0001"
      "polizzennr 12-3456789" "" [] c4Outcome c4Top [c4Second]
      (by with_unfolding_all decide) (by with_unfolding_all decide)⟩

/-! ## Routing evaluation
(`evaluate_routing`, `src/ieim/route/evaluator.py`).

A rule's `when` object is embedded as a typed condition carrying the
module's closed key set (unknown keys and malformed values raise at
load/evaluation time and are outside this model); rule and fallback
`then` objects as their extracted fields.  `frozenset` membership is
list membership. -/

/-- The routing context (`RoutingContext`). -/
structure RoutingContext where
  identity_status : String
  primary_intent : String
  product_line : String
  urgency : String
  risk_flags : List String

mutual
/-- A validated `when` object: each supported key optionally
present. -/
inductive Cond : Type where
  | mk (risk_flags_any risk_flags_not_any primary_intent_in
        primary_intent_not_in identity_status_in product_line_in :
          Option (List String))
       (anyC allC : Option CondList) : Cond
/-- A list of nested condition branches (`when.any` / `when.all`). -/
inductive CondList : Type where
  | nil : CondList
  | cons : Cond → CondList → CondList
end

mutual
/-- `_match_condition` (`evaluator.py` lines 41-100): every present
key must pass, in the module's fixed order. -/
def matchCond (ctx : RoutingContext) : Cond → Bool
  | .mk rfa rfna pii pini isi pli anyC allC =>
    (match rfa with
     | none => true
     | some vs => vs.any (fun v => ctx.risk_flags.contains v)) &&
    (match rfna with
     | none => true
     | some vs => !vs.any (fun v => ctx.risk_flags.contains v)) &&
    (match pii with
     | none => true
     | some vs => vs.contains ctx.primary_intent) &&
    (match pini with
     | none => true
     | some vs => !vs.contains ctx.primary_intent) &&
    (match isi with
     | none => true
     | some vs => vs.contains ctx.identity_status) &&
    (match pli with
     | none => true
     | some vs => vs.contains ctx.product_line) &&
    (match anyC with
     | none => true
     | some bs => matchAnyCond ctx bs) &&
    (match allC with
     | none => true
     | some bs => matchAllCond ctx bs)
/-- `any(_match_condition(x, ctx) for x in branches)`. -/
def matchAnyCond (ctx : RoutingContext) : CondList → Bool
  | .nil => false
  | .cons c cs => matchCond ctx c || matchAnyCond ctx cs
/-- `all(_match_condition(x, ctx) for x in branches)`. -/
def matchAllCond (ctx : RoutingContext) : CondList → Bool
  | .nil => true
  | .cons c cs => matchCond ctx c && matchAllCond ctx cs
end

/-- A rule's (or the fallback's) `then` object fields; `thn` embeds the
source's `then` key. -/
structure Then where
  queue_id : String
  sla_id : String
  priority : Int
  actions : List String
  fail_closed : Bool
  fail_closed_reason : Option String
deriving DecidableEq

/-- One routing rule. -/
structure Rule where
  rule_id : String
  priority : Int
  when : Cond
  thn : Then

/-- The incident configuration fields `evaluate_routing` reads. -/
structure Incident where
  force_review : Bool
  force_review_queue_id : String
  block_case_create_risk_flags_any : List String

/-- The decision fields the overrides touch. -/
structure Decision where
  queue_id : String
  sla_id : String
  priority : Int
  actions : List String
  rule_id : String
  fail_closed : Bool
  fail_closed_reason : Option String
deriving DecidableEq

/-- The descending-priority key order of `_sorted_rules`
(`evaluator.py` lines 103-110, `reverse=True`). -/
def rulePrioLe (a b : Rule) : Bool := decide (b.priority ≤ a.priority)

/-- Python's falsy test on `decision.get("fail_closed_reason")`:
`None` or the empty string. -/
def reasonFalsy : Option String → Bool
  | none => true
  | some s => s = ""

/-- Whether the block-case-create toggle fires: a non-empty configured
flag list intersecting the context's risk flags (`evaluator.py` lines
191-192). -/
def blockTriggered (incident : Incident) (ctx : RoutingContext) : Bool :=
  (!incident.block_case_create_risk_flags_any.isEmpty) &&
    incident.block_case_create_risk_flags_any.any
      (fun f => ctx.risk_flags.contains f)

/-- The decision before the block-case-create override: sorted rules,
first match or fallback, then the force-review replacement
(`evaluator.py` lines 141-188). -/
def preBlockDecision (rules : List Rule) (fallback : Then)
    (incident : Incident) (ctx : RoutingContext) : Decision :=
  let matched := (pySort rulePrioLe rules).find?
    (fun r => matchCond ctx r.when)
  let base : Then × String :=
    match matched with
    | none => (fallback, "ROUTE_FALLBACK")
    | some r => (r.thn, r.rule_id)
  let base :=
    if incident.force_review then
      ({ fallback with
          queue_id := incident.force_review_queue_id,
          fail_closed := true,
          fail_closed_reason := some "INCIDENT_FORCE_REVIEW",
          actions := ["ATTACH_ORIGINAL_EMAIL"] }, "INCIDENT_FORCE_REVIEW")
    else base
  ⟨base.1.queue_id, base.1.sla_id, base.1.priority, base.1.actions,
    base.2, base.1.fail_closed, base.1.fail_closed_reason⟩

/-- The block-case-create override (`evaluator.py` lines 190-200):
strip `CREATE_CASE`, insert `BLOCK_CASE_CREATE` at the front only if
absent, set `fail_closed`, and set the reason only when none is set
yet. -/
def applyBlockOverride (incident : Incident) (ctx : RoutingContext)
    (decision : Decision) : Decision :=
  if blockTriggered incident ctx then
    let actions := decision.actions.filter
      (fun a => !decide (a = "CREATE_CASE"))
    let actions :=
      if actions.contains "BLOCK_CASE_CREATE" then actions
      else "BLOCK_CASE_CREATE" :: actions
    { decision with
        actions := actions,
        fail_closed := true,
        fail_closed_reason :=
          if reasonFalsy decision.fail_closed_reason then
            some "INCIDENT_BLOCK_CASE_CREATE"
          else decision.fail_closed_reason }
  else decision

/-- The decision `evaluate_routing` returns (rule selection plus both
incident overrides, `evaluator.py` lines 141-200). -/
def evaluateRouting (rules : List Rule) (fallback : Then)
    (incident : Incident) (ctx : RoutingContext) : Decision :=
  applyBlockOverride incident ctx
    (preBlockDecision rules fallback incident ctx)

/-- `List.contains` on strings is membership. -/
theorem strContains_iff (l : List String) (s : String) :
    l.contains s = true ↔ s ∈ l := by
  simp [List.contains_iff_exists_mem_beq]

/-- An element never survives the filter that drops it. -/
theorem not_mem_filter_self (l : List String) (s : String) :
    s ∉ l.filter (fun a => !decide (a = s)) := by
  intro hm
  have hp := (List.mem_filter.mp hm).2
  simp at hp

/-- The filtered action list no longer contains the dropped action. -/
theorem contains_filter_ne (l : List String) (s : String) :
    (l.filter (fun a => !decide (a = s))).contains s = false := by
  rw [Bool.eq_false_iff]
  intro hc
  exact not_mem_filter_self l s ((strContains_iff _ _).mp hc)

/-- Nor does it after a different action is prepended. -/
theorem contains_cons_filter_ne (l : List String) (s b : String)
    (hne : s ≠ b) :
    ((b :: l.filter (fun a => !decide (a = s)))).contains s = false := by
  rw [Bool.eq_false_iff]
  intro hc
  rcases List.mem_cons.mp ((strContains_iff _ _).mp hc) with rfl | hm
  · exact hne rfl
  · exact not_mem_filter_self l s hm

/-- `rulePrioLe` is total. -/
theorem rulePrioLe_total (a b : Rule) (h : rulePrioLe a b = false) :
    rulePrioLe b a = true := by
  unfold rulePrioLe at h ⊢
  simp only [decide_eq_false_iff_not] at h
  simp only [decide_eq_true_eq]
  omega

/-- `rulePrioLe` is transitive. -/
theorem rulePrioLe_trans (a b c : Rule) (h1 : rulePrioLe a b = true)
    (h2 : rulePrioLe b c = true) : rulePrioLe a c = true := by
  unfold rulePrioLe at h1 h2 ⊢
  simp only [decide_eq_true_eq] at h1 h2 ⊢
  omega

/-- C6 (amended): the sorted rule list descends in priority and the
decision comes from a matching rule of maximal priority among the
matching rules, or from the fallback as `ROUTE_FALLBACK`; with
`incident.force_review` the decision becomes the fallback override
(incident queue, rule id and reason `INCIDENT_FORCE_REVIEW`,
`fail_closed`, action list `[ATTACH_ORIGINAL_EMAIL]`, plus a prepended
`BLOCK_CASE_CREATE` when that toggle also fires); with a blocked risk
flag the decision has `fail_closed`, carries `BLOCK_CASE_CREATE`,
drops `CREATE_CASE`, and its reason becomes
`INCIDENT_BLOCK_CASE_CREATE` only when no reason was set before —
an already-set reason (such as `INCIDENT_FORCE_REVIEW`) survives. -/
theorem routing_first_match_and_incident_overrides
    (rules : List Rule) (fallback : Then) (incident : Incident)
    (ctx : RoutingContext) :
    List.Pairwise (fun a b => b.priority ≤ a.priority)
      (pySort rulePrioLe rules) ∧
    (incident.force_review = false → blockTriggered incident ctx = false →
      ((∃ r, r ∈ rules ∧ matchCond ctx r.when = true ∧
          evaluateRouting rules fallback incident ctx =
            ⟨r.thn.queue_id, r.thn.sla_id, r.thn.priority, r.thn.actions,
              r.rule_id, r.thn.fail_closed, r.thn.fail_closed_reason⟩ ∧
          ∀ r2 ∈ rules, matchCond ctx r2.when = true →
            r2.priority ≤ r.priority) ∨
        ((∀ r ∈ rules, matchCond ctx r.when = false) ∧
          evaluateRouting rules fallback incident ctx =
            ⟨fallback.queue_id, fallback.sla_id, fallback.priority,
              fallback.actions, "ROUTE_FALLBACK", fallback.fail_closed,
              fallback.fail_closed_reason⟩))) ∧
    (incident.force_review = true →
      (evaluateRouting rules fallback incident ctx).queue_id =
          incident.force_review_queue_id ∧
      (evaluateRouting rules fallback incident ctx).rule_id =
          "INCIDENT_FORCE_REVIEW" ∧
      (evaluateRouting rules fallback incident ctx).fail_closed = true ∧
      (evaluateRouting rules fallback incident ctx).fail_closed_reason =
          some "INCIDENT_FORCE_REVIEW" ∧
      (evaluateRouting rules fallback incident ctx).sla_id =
          fallback.sla_id ∧
      (evaluateRouting rules fallback incident ctx).priority =
          fallback.priority ∧
      (evaluateRouting rules fallback incident ctx).actions =
        (if blockTriggered incident ctx = true then
          ["BLOCK_CASE_CREATE", "ATTACH_ORIGINAL_EMAIL"]
        else ["ATTACH_ORIGINAL_EMAIL"])) ∧
    (blockTriggered incident ctx = true →
      (evaluateRouting rules fallback incident ctx).fail_closed = true ∧
      (evaluateRouting rules fallback incident ctx).actions.contains
          "BLOCK_CASE_CREATE" = true ∧
      (evaluateRouting rules fallback incident ctx).actions.contains
          "CREATE_CASE" = false ∧
      (reasonFalsy (preBlockDecision rules fallback incident
          ctx).fail_closed_reason = true →
        (evaluateRouting rules fallback incident ctx).fail_closed_reason =
          some "INCIDENT_BLOCK_CASE_CREATE") ∧
      (reasonFalsy (preBlockDecision rules fallback incident
          ctx).fail_closed_reason = false →
        (evaluateRouting rules fallback incident ctx).fail_closed_reason =
          (preBlockDecision rules fallback incident
            ctx).fail_closed_reason)) := by
  refine ⟨?_, ?_, ?_, ?_⟩
  · exact List.Pairwise.imp (fun h => of_decide_eq_true h)
      (pairwise_pySort rulePrioLe rulePrioLe_total rulePrioLe_trans rules)
  · intro hfr hbl
    have hev : evaluateRouting rules fallback incident ctx =
        preBlockDecision rules fallback incident ctx := by
      unfold evaluateRouting applyBlockOverride
      rw [hbl]
      simp
    cases hfind : (pySort rulePrioLe rules).find?
        (fun r => matchCond ctx r.when) with
    | some r =>
      left
      obtain ⟨l1, l2, hsplit, hl1, hr⟩ :=
        find_decomp (fun r => matchCond ctx r.when)
          (pySort rulePrioLe rules) r hfind
      refine ⟨r, ?_, hr, ?_, ?_⟩
      · rw [← mem_pySort rulePrioLe r rules, hsplit]
        simp
      · rw [hev]
        unfold preBlockDecision
        rw [hfind, hfr]
        simp
      · intro r2 hr2 hm2
        have hr2s : r2 ∈ pySort rulePrioLe rules :=
          (mem_pySort rulePrioLe r2 rules).mpr hr2
        have hpw : List.Pairwise (fun a b => rulePrioLe a b = true)
            (pySort rulePrioLe rules) :=
          pairwise_pySort rulePrioLe rulePrioLe_total rulePrioLe_trans rules
        rw [hsplit] at hr2s hpw
        rcases List.mem_append.mp hr2s with h1 | h2
        · have hfalse := hl1 r2 h1
          rw [hm2] at hfalse
          exact Bool.noConfusion hfalse
        · rcases List.mem_cons.mp h2 with rfl | h3
          · exact le_refl r2.priority
          · have hcons := (List.pairwise_append.mp hpw).2.1
            have hle := (List.pairwise_cons.mp hcons).1 r2 h3
            simpa [rulePrioLe] using hle
    | none =>
      right
      constructor
      · intro r hrr
        have hrs : r ∈ pySort rulePrioLe rules :=
          (mem_pySort rulePrioLe r rules).mpr hrr
        have hno := List.find?_eq_none.mp hfind r hrs
        cases hm : matchCond ctx r.when
        · rfl
        · exact absurd hm hno
      · rw [hev]
        unfold preBlockDecision
        rw [hfind, hfr]
        simp
  · intro hfr
    have hpre : preBlockDecision rules fallback incident ctx =
        ⟨incident.force_review_queue_id, fallback.sla_id, fallback.priority,
          ["ATTACH_ORIGINAL_EMAIL"], "INCIDENT_FORCE_REVIEW", true,
          some "INCIDENT_FORCE_REVIEW"⟩ := by
      unfold preBlockDecision
      rw [hfr]
      simp
    unfold evaluateRouting
    rw [hpre]
    unfold applyBlockOverride
    cases hbl : blockTriggered incident ctx with
    | false => simp
    | true => simp [reasonFalsy]
  · intro hbl
    unfold evaluateRouting
    generalize preBlockDecision rules fallback incident ctx = d
    unfold applyBlockOverride
    rw [hbl]
    simp only [if_pos rfl]
    refine ⟨rfl, ?_, ?_, ?_, ?_⟩
    · by_cases hc : (d.actions.filter
          (fun a => !decide (a = "CREATE_CASE"))).contains
            "BLOCK_CASE_CREATE" = true
      · rw [if_pos hc]
        exact hc
      · rw [if_neg hc]
        exact (strContains_iff _ _).mpr (List.mem_cons_self _ _)
    · by_cases hc : (d.actions.filter
          (fun a => !decide (a = "CREATE_CASE"))).contains
            "BLOCK_CASE_CREATE" = true
      · rw [if_pos hc]
        exact contains_filter_ne d.actions "CREATE_CASE"
      · rw [if_neg hc]
        exact contains_cons_filter_ne d.actions "CREATE_CASE"
          "BLOCK_CASE_CREATE" (by decide)
    · intro hfal
      rw [hfal]
      simp
    · intro hfal
      rw [hfal]
      simp

/-- The fallback of the C6 counterexample: a reason is already set and
`CREATE_CASE` is among the actions. -/
def c6Fallback : Then :=
  ⟨"QUEUE_FALLBACK", "SLA_T3", 0, ["CREATE_CASE"], true,
    some "NO_RULE_MATCHED"⟩

/-- Both incident toggles on: force review, and block case creation
for `RISK_LEGAL_THREAT`. -/
def c6Incident : Incident :=
  ⟨true, "QUEUE_INTAKE_REVIEW_GENERAL", ["RISK_LEGAL_THREAT"]⟩

/-- A context carrying the blocked risk flag. -/
def c6Ctx : RoutingContext :=
  ⟨"IDENTITY_CONFIRMED", "INTENT_CLAIM_SUBMISSION", "PL_MOTOR", "URGENT",
    ["RISK_LEGAL_THREAT"]⟩

/-- Counterexample to C6 as stated: when `force_review` and a blocked
risk flag both fire, the final `fail_closed_reason` stays
`INCIDENT_FORCE_REVIEW` — it is not set to
`INCIDENT_BLOCK_CASE_CREATE`, because `evaluate_routing` only sets
that reason when none is present yet. -/
theorem incident_block_reason_not_overwritten :
    blockTriggered c6Incident c6Ctx = true ∧
    c6Incident.force_review = true ∧
    (evaluateRouting [] c6Fallback c6Incident c6Ctx).fail_closed_reason =
      some "INCIDENT_FORCE_REVIEW" ∧
    (evaluateRouting [] c6Fallback c6Incident c6Ctx).fail_closed_reason ≠
      some "INCIDENT_BLOCK_CASE_CREATE" ∧
    (evaluateRouting [] c6Fallback c6Incident c6Ctx).actions =
      ["BLOCK_CASE_CREATE", "ATTACH_ORIGINAL_EMAIL"] := by
  decide

end Ieim
